import Mathlib

/-!
Verification of the WI→Camtrap-DP conversion pipeline
(`src/Modulo2_WI2CamtrapDP/camtrapdp/processor.py`) against its
natural-language specification.

The Python module is shallowly embedded: pure string/record transforms become
Lean functions over `String` / `List`, pandas tables become explicit lists of
rows (association lists of column name to optional cell value, `none`
modelling a missing value / NaN), and the fallible pipeline `process_zip`
becomes a function into `Except`.  Library behaviour the code relies on
(Python `str` methods, `strftime`, `pandas.to_datetime`, the IANA timezone
database) is modelled explicitly at the points the pipeline uses it; each
such model is documented at its definition.
-/

namespace CamTrapFlow

/-! ## Python string primitives used by the processor -/

/-- Python `str.lower` restricted to ASCII letters.  Every character the
pipeline lowercases is ASCII at that point (accents are stripped first in
`_slugify_name`; taxonomy fields are compared against ASCII literals). -/
def pyLowerChar (c : Char) : Char :=
  if 65 ≤ c.toNat ∧ c.toNat ≤ 90 then Char.ofNat (c.toNat + 32) else c

/-- Python `str.upper` on one ASCII character (used by `str.capitalize`). -/
def pyUpperChar (c : Char) : Char :=
  if 97 ≤ c.toNat ∧ c.toNat ≤ 122 then Char.ofNat (c.toNat - 32) else c

/-- Python `str.lower` over a whole string. -/
def pyLower (s : String) : String :=
  String.mk (s.toList.map pyLowerChar)

/-- Python `str.capitalize`: first character uppercased, the rest lowercased
(`images["genus"].str.capitalize()` in the processor). -/
def pyCapitalize (s : String) : String :=
  match s.toList with
  | [] => ""
  | c :: cs => String.mk (pyUpperChar c :: cs.map pyLowerChar)

/-- Does `l` start with `pat`? -/
def listStartsW (pat l : List Char) : Bool :=
  match pat, l with
  | [], _ => true
  | _ :: _, [] => false
  | p :: ps, c :: cs => p == c && listStartsW ps cs

/-- Does `l` contain `pat` as a contiguous sublist? -/
def listContainsSub (pat : List Char) : List Char → Bool
  | [] => pat.isEmpty
  | c :: cs => listStartsW pat (c :: cs) || listContainsSub pat cs

/-- Python's `in` operator on strings: substring containment. -/
def containsSub (s pat : String) : Bool :=
  listContainsSub pat.toList s.toList

/-- `name.lower().endswith(".csv")`-style suffix test. -/
def endsWithStr (s suf : String) : Bool :=
  s.toList.reverse.take suf.toList.length == suf.toList.reverse

/-- Split a character list at every occurrence of `sep`
(Python `str.split(sep)` / the separator uses of `String.splitOn` below). -/
def splitOnChar (sep : Char) : List Char → List (List Char)
  | [] => [[]]
  | c :: cs =>
    let r := splitOnChar sep cs
    if c == sep then [] :: r
    else
      match r with
      | [] => [[c]]
      | h :: t => (c :: h) :: t

/-- Split a string on a one-character separator. -/
def splitStr (sep : Char) (s : String) : List String :=
  (splitOnChar sep s.toList).map String.mk

/-- ASCII whitespace (what Python `str.strip()` removes from these inputs). -/
def isSpaceChar (c : Char) : Bool :=
  c == ' ' || c.toNat == 9 || c.toNat == 10 || c.toNat == 11 ||
    c.toNat == 12 || c.toNat == 13

/-- Python `str.strip()`. -/
def pyStrip (s : String) : String :=
  String.mk ((s.toList.dropWhile isSpaceChar).rdropWhile isSpaceChar)

/-- Code-point lexicographic order on character lists (Python `<` on
strings). -/
def strLtChars : List Char → List Char → Bool
  | [], [] => false
  | [], _ :: _ => true
  | _ :: _, [] => false
  | a :: as, b :: bs =>
    if a.toNat < b.toNat then true
    else if b.toNat < a.toNat then false
    else strLtChars as bs

/-- Python `<` on strings. -/
def strLt (a b : String) : Bool := strLtChars a.toList b.toList

/-! ## Decimal digit rendering (Python `%d`, `{:02d}`, `{:06d}`, `strftime`) -/

/-- The decimal digit character for `n % 10`. -/
def digitChar (n : Nat) : Char := Char.ofNat (48 + n % 10)

/-- Digit rendering worker; `fuel` bounds the recursion depth so that the
definition is structurally recursive (any `fuel > n` is enough). -/
def natDigitsAux (fuel : Nat) (n : Nat) : List Char :=
  match fuel with
  | 0 => []
  | fuel + 1 =>
    if n < 10 then [digitChar n]
    else natDigitsAux fuel (n / 10) ++ [digitChar (n % 10)]

/-- Decimal digits of `n`, most significant first (Python `str(n)` for
naturals). -/
def natDigits (n : Nat) : List Char := natDigitsAux (n + 1) n

/-- Python `str(n)` for a natural number. -/
def natToStr (n : Nat) : String := String.mk (natDigits n)

/-- Zero-padding to width `w`: Python `f"{n:0wd}"` / `strftime` fields. -/
def padNat (w n : Nat) : String :=
  String.mk (List.replicate (w - (natDigits n).length) '0' ++ natDigits n)

/-- Python `f"{n:02d}"` — the duplicate-media suffix counter format. -/
def pad2 (n : Nat) : String := padNat 2 n

/-- Python `f"{n:06d}"` — the synthesized mediaID counter format. -/
def pad6 (n : Nat) : String := padNat 6 n

/-- Numeric value of a digit string (for injectivity of the padded forms). -/
def digitsVal (l : List Char) : Nat :=
  l.foldl (fun a c => a * 10 + (c.toNat - 48)) 0

/-! ## `_slugify_name` (processor.py lines 87–129)

The Python function first applies `unicodedata.normalize("NFKD", s)` followed
by `encode("ascii","ignore")`.  `nfkdAscii` models this composite: ASCII code
points are NFKD-invariant and kept verbatim; Latin letters with diacritics
decompose into their ASCII base letter plus combining marks, which the ASCII
encode drops, leaving the base letter; any other non-ASCII character has no
ASCII decomposition and is dropped entirely. -/

/-- NFKD-normalize one character and keep its ASCII residue
(`unicodedata.normalize("NFKD", ·).encode("ascii","ignore")`). -/
def nfkdAsciiChar (c : Char) : List Char :=
  if c.toNat < 128 then [c]
  else if c ∈ ['á', 'à', 'â', 'ä', 'ã', 'Á', 'À', 'Â', 'Ä', 'Ã'] then
    [if c.toNat < 0xE0 then 'A' else 'a']
  else if c ∈ ['é', 'è', 'ê', 'ë', 'É', 'È', 'Ê', 'Ë'] then
    [if c.toNat < 0xE0 then 'E' else 'e']
  else if c ∈ ['í', 'ì', 'î', 'ï', 'Í', 'Ì', 'Î', 'Ï'] then
    [if c.toNat < 0xE0 then 'I' else 'i']
  else if c ∈ ['ó', 'ò', 'ô', 'ö', 'õ', 'Ó', 'Ò', 'Ô', 'Ö', 'Õ'] then
    [if c.toNat < 0xE0 then 'O' else 'o']
  else if c ∈ ['ú', 'ù', 'û', 'ü', 'Ú', 'Ù', 'Û', 'Ü'] then
    [if c.toNat < 0xE0 then 'U' else 'u']
  else if c ∈ ['ñ', 'Ñ'] then [if c.toNat < 0xE0 then 'N' else 'n']
  else if c ∈ ['ç', 'Ç'] then [if c.toNat < 0xE0 then 'C' else 'c']
  else []

/-- Character class of the slug alphabet `[-a-z0-9._/]` kept by the regex
`re.sub(r"[^-a-z0-9._/]+", "", s)` (code points: hyphen 45, dot 46,
slash 47, digits 48–57, lowercase letters 97–122). -/
def isSlugChar (c : Char) : Bool :=
  (97 ≤ c.toNat && c.toNat ≤ 122) || (48 ≤ c.toNat && c.toNat ≤ 57) ||
    c.toNat == 45 || c.toNat == 46 || c.toNat == 47

/-- Separator class `[-./]` trimmed from both ends. -/
def isSepChar (c : Char) : Bool :=
  c.toNat == 45 || c.toNat == 46 || c.toNat == 47

/-- Lowercase-letter-or-digit class `[a-z0-9]`. -/
def isAlnumLower (c : Char) : Bool :=
  (97 ≤ c.toNat && c.toNat ≤ 122) || (48 ≤ c.toNat && c.toNat ≤ 57)

/-- The character-list core of `_slugify_name`: NFKD/ASCII fold, space and
underscore to hyphen, lowercase, drop everything outside `[-a-z0-9._/]`, trim
leading and trailing `[-./]`. -/
def slugifyChars (cs : List Char) : List Char :=
  let ascii := (cs.map nfkdAsciiChar).flatten
  let dashed := ascii.map fun c => if c == ' ' || c == '_' then '-' else c
  let lowered := dashed.map pyLowerChar
  let filtered := lowered.filter isSlugChar
  (filtered.dropWhile isSepChar).rdropWhile isSepChar

/-- `_slugify_name` (processor.py lines 87–129): slugify a name for the
Camtrap-DP package manifest, with fallback `"wi-project"` when the cleaned
result is empty. -/
def slugify_name (s : String) : String :=
  let r := slugifyChars s.toList
  if r.isEmpty then "wi-project" else String.mk r

/-- The shape `^[a-z0-9][a-z0-9\-./]*$` from the testable property. -/
def isSlugShape (s : String) : Bool :=
  match s.toList with
  | [] => false
  | c :: cs => isAlnumLower c && (c :: cs).all isSlugChar

/-! ## Timestamp localizer `to_iso_utc` (processor.py lines 179–234)

The pipeline parses heterogeneous date strings with
`pd.to_datetime(s, format="%d/%m/%Y %H:%M", errors="coerce")` first and a
lenient `pd.to_datetime(s, dayfirst=False, errors="coerce")` second,
localizes naive results with
`tz_localize(tz_hint, nonexistent="shift_forward", ambiguous="NaT")`,
converts to UTC and renders with `strftime("%Y-%m-%dT%H:%M:%SZ")`.  Dates
are modelled as explicit calendar records; the timezone database is modelled
for the zones the data references. -/

/-- A wall-clock instant: year, month, day, hour, minute, second. -/
structure DT where
  y : Nat
  mo : Nat
  d : Nat
  h : Nat
  mi : Nat
  sec : Nat
deriving DecidableEq, Repr

/-- Gregorian leap-year rule. -/
def isLeap (y : Nat) : Bool := (y % 4 == 0 && y % 100 != 0) || y % 400 == 0

/-- Days in a month (only consulted for `mo` between 1 and 12). -/
def daysInMonth (y mo : Nat) : Nat :=
  if mo = 2 then (if isLeap y then 29 else 28)
  else if mo = 4 ∨ mo = 6 ∨ mo = 9 ∨ mo = 11 then 30
  else 31

/-- Calendar validity plus the pandas `Timestamp` year range:
`pd.to_datetime(..., errors="coerce")` turns out-of-range instants into
`NaT` (`Timestamp.min` lies in 1677 and `Timestamp.max` in 2262; the model
keeps the fully covered years 1678–2261). -/
def dtOk (t : DT) : Bool :=
  1678 ≤ t.y && t.y ≤ 2261 && 1 ≤ t.mo && t.mo ≤ 12 && 1 ≤ t.d &&
    t.d ≤ daysInMonth t.y t.mo && t.h ≤ 23 && t.mi ≤ 59 && t.sec ≤ 59

/-- The calendar day after `t`'s day. -/
def nextDay (t : DT) : DT :=
  if t.d < daysInMonth t.y t.mo then { t with d := t.d + 1 }
  else if t.mo < 12 then { t with mo := t.mo + 1, d := 1 }
  else { t with y := t.y + 1, mo := 1, d := 1 }

/-- The calendar day before `t`'s day. -/
def prevDay (t : DT) : DT :=
  if 1 < t.d then { t with d := t.d - 1 }
  else if 1 < t.mo then { t with mo := t.mo - 1, d := daysInMonth t.y (t.mo - 1) }
  else { t with y := t.y - 1, mo := 12, d := 31 }

/-- Shift an instant by `delta` minutes, for `-1440 ≤ delta ≤ 1440` (every
UTC offset in the zone table is well below one day). -/
def addMinutes (t : DT) (delta : Int) : DT :=
  let total : Int := t.h * 60 + t.mi + delta
  if total < 0 then
    let u := prevDay t
    { u with h := (total + 1440).toNat / 60, mi := (total + 1440).toNat % 60 }
  else if total < 1440 then
    { t with h := total.toNat / 60, mi := total.toNat % 60 }
  else
    let u := nextDay t
    { u with h := (total - 1440).toNat / 60, mi := (total - 1440).toNat % 60 }

/-- Monotone encoding of a wall-clock instant for comparisons against
DST-transition boundaries. -/
def dtKey (t : DT) : Nat :=
  ((((t.y * 13 + t.mo) * 32 + t.d) * 24 + t.h) * 60 + t.mi) * 60 + t.sec

/-- One DST regime of an IANA zone: the nonexistent ("spring forward") local
window `[gapStart, gapEnd)`, the ambiguous ("fall back") window
`[ambStart, ambEnd)`, and the daylight offset applying between them. -/
structure DstRule where
  dstOffset : Int
  gapStart : DT
  gapEnd : DT
  ambStart : DT
  ambEnd : DT
deriving DecidableEq, Repr

/-- A zone entry: standard offset in minutes east of UTC, plus an optional
DST regime. -/
structure ZoneSpec where
  stdOffset : Int
  dst : Option DstRule
deriving DecidableEq, Repr

/-!
The zone table models the IANA zones the pipeline's data references, as
`tz_localize` resolves them: America/Bogota is fixed UTC−05:00 (no DST since
1993); UTC itself; and America/New_York at its 2024 rules (2024-03-10
02:00→03:00 spring forward, 2024-11-03 02:00→01:00 fall back, standard
UTC−05:00, daylight UTC−04:00) as the representative DST zone.  A name
outside the table models the `tz_localize` unknown-zone failure that
`to_iso_utc` catches. -/

/-- America/Bogota. -/
def bogotaZone : ZoneSpec := { stdOffset := -300, dst := none }

/-- UTC itself. -/
def utcZone : ZoneSpec := { stdOffset := 0, dst := none }

/-- America/New_York 2024 DST regime. -/
def nyRule : DstRule :=
  { dstOffset := -240,
    gapStart := ⟨2024, 3, 10, 2, 0, 0⟩,
    gapEnd := ⟨2024, 3, 10, 3, 0, 0⟩,
    ambStart := ⟨2024, 11, 3, 1, 0, 0⟩,
    ambEnd := ⟨2024, 11, 3, 2, 0, 0⟩ }

/-- America/New_York. -/
def nyZone : ZoneSpec := { stdOffset := -300, dst := some nyRule }

/-- The zone table (see the section comment above). -/
def zoneTable : List (String × ZoneSpec) :=
  [("America/Bogota", bogotaZone), ("UTC", utcZone),
   ("America/New_York", nyZone)]

/-- Is `t` in the nonexistent (spring-forward) window? -/
def inGap (r : DstRule) (t : DT) : Bool :=
  dtKey r.gapStart ≤ dtKey t && dtKey t < dtKey r.gapEnd

/-- Is `t` in the ambiguous (fall-back) window? -/
def inAmb (r : DstRule) (t : DT) : Bool :=
  dtKey r.ambStart ≤ dtKey t && dtKey t < dtKey r.ambEnd

/-- Is `t` inside the daylight-saving period? -/
def inDst (r : DstRule) (t : DT) : Bool :=
  dtKey r.gapEnd ≤ dtKey t && dtKey t < dtKey r.ambStart

/-- `dt.tz_localize(zone, nonexistent="shift_forward", ambiguous="NaT")`
followed by `dt.tz_convert("UTC")`.  A nonexistent local time shifts forward
to the first existing instant (the gap's end); an ambiguous local time
becomes `NaT` (`none`); an unknown zone raises inside `tz_localize`, which
`to_iso_utc` catches by localizing as UTC instead — the `none`-lookup branch
therefore returns `t` unchanged. -/
def localizeToUtc (t : DT) (zone : String) : Option DT :=
  match zoneTable.lookup zone with
  | none => some t
  | some z =>
    match z.dst with
    | none => some (addMinutes t (-z.stdOffset))
    | some r =>
      if inGap r t then some (addMinutes r.gapEnd (-r.dstOffset))
      else if inAmb r t then none
      else if inDst r t then some (addMinutes t (-r.dstOffset))
      else some (addMinutes t (-z.stdOffset))

/-- ASCII decimal digit test. -/
def isDigitChar (c : Char) : Bool := 48 ≤ c.toNat && c.toNat ≤ 57

/-- Parse a nonempty all-digit character list. -/
def parseNatDigits (l : List Char) : Option Nat :=
  if l.isEmpty then none
  else if l.all isDigitChar then some (digitsVal l) else none

/-- Parse a numeric field of at most `maxLen` digits (`strptime` consumes at
most two digits for `%d`/`%m`/`%H`/`%M` and four for `%Y`). -/
def parseNatField (maxLen : Nat) (s : String) : Option Nat :=
  if s.toList.length ≤ maxLen then parseNatDigits s.toList else none

/-- Build a `DT` if the fields form a valid, in-range instant (`NaT`
otherwise, as `errors="coerce"` produces). -/
def mkDT (y mo d h mi sec : Nat) : Option DT :=
  let t : DT := ⟨y, mo, d, h, mi, sec⟩
  if dtOk t then some t else none

/-- `pd.to_datetime(s, format="%d/%m/%Y %H:%M", errors="coerce")`: the exact
day-first parse attempted first. -/
def parseFixedDayFirst (s : String) : Option DT :=
  match splitStr ' ' s with
  | [datePart, timePart] =>
    match splitStr '/' datePart, splitStr ':' timePart with
    | [ds, ms, ys], [hs, mis] =>
      match parseNatField 2 ds, parseNatField 2 ms, parseNatField 4 ys,
          parseNatField 2 hs, parseNatField 2 mis with
      | some d, some mo, some y, some h, some mi => mkDT y mo d h mi 0
      | _, _, _, _, _ => none
    | _, _ => none
  | _ => none

/-- A parsed stamp: the wall-clock fields plus the explicit UTC offset in
minutes when the input carried a timezone. -/
structure ParsedStamp where
  dt : DT
  tzOffset : Option Int
deriving DecidableEq, Repr

/-- Split `"<date> <time>"` or `"<date>T<time>"` (time part may be empty). -/
def splitDateTime (s : String) : Option (String × String) :=
  match splitStr ' ' s with
  | [d] =>
    match splitStr 'T' d with
    | [d2, t2] => some (d2, t2)
    | [d2] => some (d2, "")
    | _ => none
  | [d, t] => some (d, t)
  | _ => none

/-- Parse `"±HH:MM"`-style offset magnitude in minutes. -/
def parseOffsetMin (s : String) : Option Int :=
  match splitStr ':' s with
  | [hs, ms] =>
    match parseNatField 2 hs, parseNatField 2 ms with
    | some h, some m =>
        if h ≤ 23 && m ≤ 59 then some ((h : Int) * 60 + m) else none
    | _, _ => none
  | _ => none

/-- Strip a trailing timezone designator (`Z` or `±HH:MM`) from a time
string, returning the bare time and the offset when one was present. -/
def stripTzSuffix (t : String) : Option (String × Option Int) :=
  if t = "" then some (t, none)
  else if endsWithStr t "Z" then some (String.mk t.toList.dropLast, some 0)
  else
    match splitStr '+' t with
    | [t0, off] => (parseOffsetMin off).map fun o => (t0, some o)
    | [_] =>
      match splitStr '-' t with
      | [t0, off] => (parseOffsetMin off).map fun o => (t0, some (-o))
      | [_] => some (t, none)
      | _ => none
    | _ => none

/-- Parse `"YYYY-MM-DD"`. -/
def parseYMD (s : String) : Option (Nat × Nat × Nat) :=
  match splitStr '-' s with
  | [ys, ms, ds] =>
    match parseNatField 4 ys, parseNatField 2 ms, parseNatField 2 ds with
    | some y, some mo, some d => some (y, mo, d)
    | _, _, _ => none
  | _ => none

/-- Parse `"HH:MM"` or `"HH:MM:SS"`. -/
def parseHMS (s : String) : Option (Nat × Nat × Nat) :=
  match splitStr ':' s with
  | [hs, mis] =>
    match parseNatField 2 hs, parseNatField 2 mis with
    | some h, some mi => some (h, mi, 0)
    | _, _ => none
  | [hs, mis, ss] =>
    match parseNatField 2 hs, parseNatField 2 mis, parseNatField 2 ss with
    | some h, some mi, some sec => some (h, mi, sec)
    | _, _, _ => none
  | _ => none

/-- ISO branch of the lenient parser: `YYYY-MM-DD[ T]HH:MM[:SS]` with an
optional trailing `Z`/`±HH:MM`. -/
def parseIso (s : String) : Option ParsedStamp :=
  match splitDateTime s with
  | none => none
  | some (dpart, tpart) =>
    match parseYMD dpart with
    | none => none
    | some (y, mo, d) =>
      if tpart = "" then (mkDT y mo d 0 0 0).map fun t => ⟨t, none⟩
      else
        match stripTzSuffix tpart with
        | none => none
        | some (t0, tz) =>
          match parseHMS t0 with
          | none => none
          | some (h, mi, sec) => (mkDT y mo d h mi sec).map fun t => ⟨t, tz⟩

/-- Slashed branch of the lenient parser: `a/b/YYYY [HH:MM[:SS]]`.  With
`dayfirst=False`, `dateutil` reads month first and swaps the two fields when
the first exceeds 12. -/
def parseSlashed (s : String) : Option ParsedStamp :=
  match splitDateTime s with
  | none => none
  | some (dpart, tpart) =>
    match splitStr '/' dpart with
    | [as, bs, ys] =>
      match parseNatField 2 as, parseNatField 2 bs, parseNatField 4 ys with
      | some a, some b, some y =>
        let mo := if a ≤ 12 then a else b
        let d := if a ≤ 12 then b else a
        if tpart = "" then (mkDT y mo d 0 0 0).map fun t => ⟨t, none⟩
        else
          match parseHMS tpart with
          | none => none
          | some (h, mi, sec) => (mkDT y mo d h mi sec).map fun t => ⟨t, none⟩
      | _, _, _ => none
    | _ => none

/-- The two-stage parse of `to_iso_utc`: the exact day-first format first,
then the lenient parser (`pd.to_datetime(s, dayfirst=False)`), modelled for
the formats the Wildlife Insights exports contain (ISO and slashed dates);
anything else parses to `NaT`. -/
def parseStamp (s : String) : Option ParsedStamp :=
  match parseFixedDayFirst s with
  | some dt => some ⟨dt, none⟩
  | none =>
    match parseIso s with
    | some p => some p
    | none => parseSlashed s

/-- `strftime("%Y-%m-%dT%H:%M:%SZ")`. -/
def renderIso (t : DT) : String :=
  padNat 4 t.y ++ "-" ++ pad2 t.mo ++ "-" ++ pad2 t.d ++ "T" ++ pad2 t.h ++
    ":" ++ pad2 t.mi ++ ":" ++ pad2 t.sec ++ "Z"

/-- `to_iso_utc` (processor.py lines 179–234).  `value = none` models a
missing cell (NaN, whose `str()` is `"nan"` and hits the `"nan"` guard);
parse failure, ambiguous localization (via `NaT.strftime` raising into the
enclosing `except`) and empty input all yield the `pd.NA` sentinel, `none`.
The Python function wraps its body in `try/except` and never raises; the
model is total. -/
def to_iso_utc (value : Option String) (tz_hint : String) : Option String :=
  match value with
  | none => none
  | some raw =>
    let s := pyStrip raw
    if s = "" ∨ pyLower s = "nan" then none
    else
      match parseStamp s with
      | none => none
      | some p =>
        match p.tzOffset with
        | some off => some (renderIso (addMinutes p.dt (-off)))
        | none => (localizeToUtc p.dt tz_hint).map renderIso

/-- The shape `"YYYY-MM-DDTHH:MM:SSZ"` — 20 characters, digits in the date
and time positions, literal separators and a trailing `Z`. -/
def isIsoUtcShape (s : String) : Bool :=
  match s.toList with
  | [y1, y2, y3, y4, c1, m1, m2, c2, d1, d2, ct, h1, h2, c3, i1, i2, c4,
      s1, s2, cz] =>
    [y1, y2, y3, y4, m1, m2, d1, d2, h1, h2, i1, i2, s1, s2].all isDigitChar
      && c1 == '-' && c2 == '-' && ct == 'T' && c3 == ':' && c4 == ':'
      && cz == 'Z'
  | _ => false

/-- Field bounds under which `renderIso` prints each component at its
`strftime` width (guaranteed for every instant the pipeline renders, via the
pandas `Timestamp` range and the bounded zone offsets). -/
def renderOk (t : DT) : Prop :=
  t.y ≤ 9999 ∧ t.mo ≤ 99 ∧ t.d ≤ 99 ∧ t.h ≤ 99 ∧ t.mi ≤ 99 ∧ t.sec ≤ 99

/-! ## Taxonomic classifier (processor.py lines 330–427) -/

/-- The taxonomy fields of one image row, as
`classify_observation_and_scientific_name` reads them with
`str(row.get(k, ""))`: the cell's text, `"nan"` for a missing value, `""`
for an absent column.  (`species` is read by the Python function but never
used; `scientific_name_norm` is the genus+species composite built by the
pipeline beforehand.) -/
structure TaxRow where
  common_name : String
  scientific_name_norm : String
  genus : String
  family : String
  order : String
  class_name : String
deriving DecidableEq, Repr

/-- The truthiness-plus-placeholder test the classifier applies to every
scientific field: `value and value.lower() not in {"", "nan", "none"}`. -/
def isMeaningful (s : String) : Bool :=
  !(s == "") && !(pyLower s == "nan") && !(pyLower s == "none")

/-- `classify_observation_and_scientific_name` (processor.py lines
330–427): sentinel common names first (human, blank, animal, vehicle,
unknown, unclassified), then the taxonomic cascade, which never consults the
common name. -/
def classify_observation_and_scientific_name (row : TaxRow) :
    String × String :=
  let common_name := pyStrip row.common_name
  let scientific_name_norm := pyStrip row.scientific_name_norm
  let genus := pyStrip row.genus
  let order := pyStrip row.order
  let family := pyStrip row.family
  let class_name := pyStrip row.class_name
  let common_lower := pyLower common_name
  if common_lower = "human" ∨ common_lower = "human-camera trapper" then
    ("human",
      if isMeaningful scientific_name_norm then scientific_name_norm
      else "Homo sapiens")
  else if common_lower = "blank" then ("blank", "blank")
  else if common_lower = "animal" then ("animal", "Animalia")
  else if common_lower = "vehicle" then ("vehicle", "blank")
  else if common_lower = "unknown" then ("unknown", "blank")
  else if common_lower = "unclassified" then ("unclassified", "blank")
  else
    ("animal",
      if isMeaningful scientific_name_norm &&
          containsSub scientific_name_norm " " then scientific_name_norm
      else if isMeaningful genus then genus
      else if isMeaningful family then family
      else if isMeaningful order then order
      else if isMeaningful class_name then class_name
      else "Animalia")

/-- The taxonomic cascade as the specification words it (spec §4.4, item 7):
the genus+species composite if it contains a space, else genus, else family,
else order, else class, else the literal `"Animalia"`; a field is present
when it is nonempty and not a `nan`/`none` placeholder. -/
def cascadeSpec (sci genus family order cls : String) : String :=
  if isMeaningful sci && containsSub sci " " then sci
  else if isMeaningful genus then genus
  else if isMeaningful family then family
  else if isMeaningful order then order
  else if isMeaningful cls then cls
  else "Animalia"

/-- The genus/species normalization and composite construction of
`process_zip` (lines 1203–1211): genus stripped and capitalized, species
stripped and lowercased, composite `"<genus> <species>"` stripped. -/
def normalizeSci (genus species : String) : String × String :=
  let g := pyCapitalize (pyStrip genus)
  let sp := pyLower (pyStrip species)
  (g, pyStrip (g ++ " " ++ sp))

/-! ## Tables and the `process_zip` pipeline (processor.py lines 1001–2178)

A pandas DataFrame loaded from a CSV becomes a `Table`: a header plus rows
of column-name ↦ cell bindings, where `none` is a missing value (NaN).  The
pipeline model follows the source's control flow exactly through every
operation that can raise or that feeds a required output column; the many
optional-column mappings (`include_if_any` and the per-field `apply`
helpers, lines 1229–1647 and 1743–2070) are omitted because each one either
swallows its own exceptions or degrades to NA and none of them can change
the control flow or the required-field checks.  `projects`/`cameras` are
likewise loaded but feed only optional columns and the manifest
(`_build_datapackage_min` has total fallbacks for an empty frame), so they
cannot affect success or failure and are not modelled. -/

/-- A cell: `none` is a missing value (pandas NaN). -/
abbrev Cell := Option String

/-- One CSV row: column name ↦ cell.  A key absent from a row reads as
missing. -/
abbrev Row := List (String × Cell)

/-- `str(cell)`: pandas renders a NaN cell as `"nan"`. -/
def cellStr (c : Cell) : String :=
  match c with
  | some s => s
  | none => "nan"

/-- A `fillna("")`-style read. -/
def cellOrEmpty (c : Cell) : String :=
  match c with
  | some s => s
  | none => ""

/-- Read a cell from a row (`row[k]`; NaN when the key is absent). -/
def getCell (r : Row) (k : String) : Cell :=
  match r.lookup k with
  | some c => c
  | none => none

/-- `Series.get(k, "")` on a row: the default only fires when the column
itself is absent; a present-but-missing value reads as `"nan"` through
`str()`. -/
def rowGetStr (cols : List String) (r : Row) (k : String) : String :=
  if k ∈ cols then cellStr (getCell r k) else ""

/-- A loaded CSV table: header and rows. -/
structure Table where
  cols : List String
  rows : List Row
deriving DecidableEq, Repr

/-- What `_load_csv_from_zip` yields when no member matches. -/
def emptyTable : Table := ⟨[], []⟩

/-- `_load_csv_from_zip` (lines 546–576): the first zip member whose
lowercased name ends in `.csv` and contains `pat` (already lowercase at
every call site), else an empty frame. -/
def loadCsvFromZip (members : List (String × Table)) (pat : String) :
    Table :=
  match members.find? (fun m =>
      endsWithStr (pyLower m.1) ".csv" && containsSub (pyLower m.1) pat) with
  | some m => m.2
  | none => emptyTable

/-- A parsed decimal number, held exactly as `mant / 10 ^ dec` (the float
values these inputs produce are plain decimals, which this represents
without rounding). -/
structure Dec10 where
  mant : Int
  dec : Nat
deriving DecidableEq, Repr

/-- `10 ^ k` by structural recursion. -/
def tenPow : Nat → Nat
  | 0 => 1
  | k + 1 => 10 * tenPow k

/-- Exact order on parsed decimals (cross-multiplied). -/
def decLt (a b : Dec10) : Prop :=
  a.mant * (tenPow b.dec : Int) < b.mant * (tenPow a.dec : Int)

instance (a b : Dec10) : Decidable (decLt a b) := by
  unfold decLt
  infer_instance

/-- The decimal value of an integer. -/
def decOfInt (n : Int) : Dec10 := ⟨n, 0⟩

/-- `float(s)` / `pd.to_numeric(·, errors="coerce")` for the plain decimal
forms the exports contain (optional sign, digits, optional fractional
part); anything else coerces to NaN. -/
def parseDecimal (s : String) : Option Dec10 :=
  let l := (pyStrip s).toList
  let sb : Int × List Char :=
    match l with
    | '-' :: rest => (-1, rest)
    | '+' :: rest => (1, rest)
    | _ => (1, l)
  match splitOnChar '.' sb.2 with
  | [ip] =>
    match parseNatDigits ip with
    | some n => some ⟨sb.1 * n, 0⟩
    | none => none
  | [ip, fp] =>
    if ip.isEmpty && fp.isEmpty then none
    else if ip.all isDigitChar && fp.all isDigitChar then
      some ⟨sb.1 * (digitsVal ip * tenPow fp.length + digitsVal fp),
        fp.length⟩
    else none
  | _ => none

/-- `ext_to_mediatype` (lines 237–285): MIME type from the filename
extension, `application/octet-stream` for anything unrecognized. -/
def ext_to_mediatype (name : String) : String :=
  let ext :=
    if containsSub name "." then ((splitStr '.' (pyLower name)).getLast?).getD ""
    else ""
  if ext = "jpg" ∨ ext = "jpeg" then "image/jpeg"
  else if ext = "png" then "image/png"
  else if ext = "gif" then "image/gif"
  else if ext = "bmp" then "image/bmp"
  else if ext = "tif" ∨ ext = "tiff" then "image/tiff"
  else if ext = "mp4" then "video/mp4"
  else if ext = "avi" then "video/x-msvideo"
  else "application/octet-stream"

/-- One per-field group of the "No CV Result" gate report: the field, the
total number of affected rows, and the example rows listed in the error
message (1-indexed row number with filename, at most 8 per field). -/
structure GateGroup where
  field : String
  total : Nat
  examples : List (Nat × String)
deriving DecidableEq, Repr

/-- The errors `process_zip` raises, in pipeline order: the taxonomy gate
(`RuntimeError`, lines 1124–1158); a column-length mismatch (`ValueError`
from assigning a zero-length list when `deploys` lacks `start_date` or
`end_date` but has rows, lines 1177–1182); the `AttributeError` from
`images.get("genus", "").fillna(...)` when the genus or species column is
absent (line 1209); the required-field `RuntimeError`s for the three tables
(lines 1649–1708, 1789–1843, 2072–2075); the duplicate-mediaID
`RuntimeError` (lines 1844–1846); and the `KeyError` from expanding an
empty `apply` result when the images table has columns but no rows (line
1877). -/
inductive PErr where
  | gateTaxonomy (groups : List GateGroup)
  | colLenMismatch (col : String)
  | attrError (what : String)
  | depMissing (col : String) (missing total : Nat)
  | medMissing (col : String) (missing total : Nat)
  | medDuplicate (dups : List Cell)
  | obsMissing (col : String)
  | keyError (what : String)
deriving DecidableEq, Repr

/-- One built deployments row (required fields only; latitude/longitude are
numeric after `pd.to_numeric`). -/
structure DepRec where
  deploymentID : Cell
  latitude : Option Dec10
  longitude : Option Dec10
  deploymentStart : Cell
  deploymentEnd : Cell
deriving DecidableEq, Repr

/-- One built media row (required fields only). -/
structure MedRec where
  mediaID : Cell
  deploymentID : Cell
  timestamp : Cell
  filePath : Cell
  fileMediatype : Cell
  filePublic : Bool
deriving DecidableEq, Repr

/-- One built observations row (required fields plus the classifier
outputs). -/
structure ObsRec where
  observationID : Cell
  deploymentID : Cell
  mediaID : Cell
  eventStart : Cell
  eventEnd : Cell
  observationLevel : Cell
  observationType : Cell
  scientificName : Cell
deriving DecidableEq, Repr

/-- The success payload: the three built tables and the artifacts written
into `output/`.  An error carries no artifacts — every required-field check
precedes `_ensure_work_dir` and the `to_csv` calls (lines 2080–2123), so a
failed run leaves nothing on disk. -/
structure POut where
  depRows : List DepRec
  medRows : List MedRec
  obsRows : List ObsRec
  artifacts : List String
deriving DecidableEq, Repr

instance : DecidableEq (Except PErr POut) := fun a b =>
  match a, b with
  | .ok x, .ok y =>
    match decEq x y with
    | isTrue h => isTrue (by rw [h])
    | isFalse h => isFalse fun hc => h (Except.ok.inj hc)
  | .ok _, .error _ => isFalse fun hc => Except.noConfusion hc
  | .error _, .ok _ => isFalse fun hc => Except.noConfusion hc
  | .error x, .error y =>
    match decEq x y with
    | isTrue h => isTrue (by rw [h])
    | isFalse h => isFalse fun hc => h (Except.error.inj hc)

/-- The artifacts a successful run writes. -/
def artifactNames : List String :=
  ["deployments.csv", "media.csv", "observations.csv", "datapackage.json"]

/-- The artifacts present after a run: none on a raised error. -/
def pipeArtifacts (r : Except PErr POut) : List String :=
  match r with
  | .ok o => o.artifacts
  | .error _ => []

/-- Did the run complete successfully? -/
def pipeOk (r : Except PErr POut) : Bool :=
  match r with
  | .ok _ => true
  | .error _ => false

/-- The taxonomic fields checked by the early gate (line 1107). -/
def fieldsToCheck : List String :=
  ["common_name", "genus", "species", "family", "order"]

/-- Is this cell the sentinel
(`astype(str).str.lower().str.strip() == "no cv result"`)? -/
def isNoCv (c : Cell) : Bool :=
  pyStrip (pyLower (cellStr c)) == "no cv result"

/-- `row.get("filename", "N/A")` in the gate report. -/
def hitFilename (r : Row) : String :=
  match r.lookup "filename" with
  | some c => cellStr c
  | none => "N/A"

/-- The affected rows of one checked field: 1-indexed row number
(`row.name + 1`) with filename. -/
def noCvHits (images : Table) (f : String) : List (Nat × String) :=
  (images.rows.enum.filter fun p => isNoCv (getCell p.2 f)).map
    fun p => (p.1 + 1, hitFilename p.2)

/-- The early taxonomy gate (lines 1104–1158): on a nonempty images table,
every checked field that is present and contains the sentinel contributes a
group (in `fieldsToCheck` order, matching the insertion order of the
Python dict) with its total count and its first 8 affected rows. -/
def gateCheck (images : Table) : Option (List GateGroup) :=
  if images.rows.isEmpty then none
  else
    let groups := (fieldsToCheck.filter (· ∈ images.cols)).filterMap fun f =>
      let hits := noCvHits images f
      if hits.isEmpty then none
      else some ⟨f, hits.length, hits.take 8⟩
    if groups.isEmpty then none else some groups

/-- `deploys["timezone"] = timezone_hint` when the column is absent
(lines 1170–1171). -/
def ensureTimezone (t : Table) (hint : String) : Table :=
  if "timezone" ∈ t.cols then t
  else ⟨t.cols ++ ["timezone"],
    t.rows.map fun r => ("timezone", some hint) :: r⟩

/-- `df[col] = vals` for a computed list: pandas raises a length-mismatch
`ValueError` when the list's length differs from the row count — which
happens exactly when `deploys.get("start_date", "")` fell back to the
string default `""` (zero `zip` items) against a nonempty frame. -/
def setColumn (t : Table) (col : String) (vals : List Cell) :
    Except PErr Table :=
  if vals.length = t.rows.length then
    Except.ok ⟨if col ∈ t.cols then t.cols else t.cols ++ [col],
      (t.rows.zip vals).map fun p => (col, p.2) :: p.1⟩
  else Except.error (.colLenMismatch col)

/-- The deployment timestamp normalization (lines 1170–1182): per-row
`to_iso_utc` of `start_date`/`end_date` with each row's own timezone (a NaN
timezone cell reads as `"nan"`, an unknown zone, so `to_iso_utc` falls back
to UTC — exactly the source's failed-localization path). -/
def depDatesStep (deploys0 : Table) (hint : String) : Except PErr Table := do
  let t := ensureTimezone deploys0 hint
  let startVals :=
    if "start_date" ∈ t.cols then
      t.rows.map fun r =>
        to_iso_utc (getCell r "start_date") (cellStr (getCell r "timezone"))
    else []
  let t1 ← setColumn t "deploymentStart" startVals
  let endVals :=
    if "end_date" ∈ t1.cols then
      t1.rows.map fun r =>
        to_iso_utc (getCell r "end_date") (cellStr (getCell r "timezone"))
    else []
  setColumn t1 "deploymentEnd" endVals

/-- The `deployment_id → timezone` mapping (lines 1188–1190), keyed on the
raw id cells; the dict keeps the last occurrence of a duplicated key. -/
def depTz (deploys : Table) : List (Cell × Cell) :=
  if "deployment_id" ∈ deploys.cols then
    deploys.rows.map fun r => (getCell r "deployment_id", getCell r "timezone")
  else []

/-- `dep_tz.get(deployment_id, timezone_hint)`: last occurrence wins; a
missing id (or a NaN key, which a Python dict lookup on a fresh NaN also
misses) falls back to the hint. -/
def depTzFor (pairs : List (Cell × Cell)) (hint : String) (did : Cell) :
    String :=
  match did with
  | none => hint
  | some _ =>
    match (pairs.reverse.filter fun p => p.1 = did).head? with
    | some p => cellStr p.2
    | none => hint

/-- `images["timestamp_iso"]` (lines 1193–1197): each image timestamp
localized with its deployment's timezone. -/
def addTimestampIso (images : Table) (pairs : List (Cell × Cell))
    (hint : String) : Table :=
  ⟨images.cols ++ ["timestamp_iso"],
    images.rows.map fun r =>
      ("timestamp_iso",
        to_iso_utc (getCell r "timestamp")
          (depTzFor pairs hint (getCell r "deployment_id"))) :: r⟩

/-- In-place transformation of one column when it exists. -/
def mapColumn (t : Table) (col : String) (f : Cell → Cell) : Table :=
  if col ∈ t.cols then
    ⟨t.cols, t.rows.map fun r => (col, f (getCell r col)) :: r⟩
  else t

/-- `images["scientific_name_norm"]` (lines 1209–1211).  When the genus or
species column is absent, `images.get("genus", "")` returns the string
default `""` and `"".fillna` raises `AttributeError` — the pipeline dies
here on any images table without both columns (in particular on the empty
frame loaded when no images member exists; with no columns at all the
preceding `apply` may already raise, collapsed into this same error). -/
def addSciNorm (images : Table) : Except PErr Table :=
  if "genus" ∈ images.cols ∧ "species" ∈ images.cols then
    Except.ok ⟨images.cols ++ ["scientific_name_norm"],
      images.rows.map fun r =>
        ("scientific_name_norm",
          some (pyStrip (cellOrEmpty (getCell r "genus") ++ " " ++
            cellOrEmpty (getCell r "species")))) :: r⟩
  else Except.error (.attrError "scientific_name_norm")

/-- One dep_out row (lines 1218–1227): ids as-is, coordinates parsed with
`pd.to_numeric(errors="coerce")` and then nulled outside the valid
geographic ranges (not clamped), timestamps from the normalized columns. -/
def depRecOf (cols : List String) (r : Row) : DepRec :=
  let lat := if "latitude" ∈ cols then (getCell r "latitude").bind parseDecimal
    else none
  let lon := if "longitude" ∈ cols then
    (getCell r "longitude").bind parseDecimal else none
  { deploymentID := getCell r "deployment_id",
    latitude := lat.bind fun x =>
      if decLt x (decOfInt (-90)) ∨ decLt (decOfInt 90) x then none
      else some x,
    longitude := lon.bind fun x =>
      if decLt x (decOfInt (-180)) ∨ decLt (decOfInt 180) x then none
      else some x,
    deploymentStart := getCell r "deploymentStart",
    deploymentEnd := getCell r "deploymentEnd" }

/-- dep_out (lines 1218–1227).  Without a `deployment_id` column the first
assignment puts an empty Series into the fresh frame, pinning its index to
zero rows, and every later column aligns to that index — dep_out is then
empty no matter how many source rows exist. -/
def buildDepRows (deploys : Table) : List DepRec :=
  if "deployment_id" ∈ deploys.cols then deploys.rows.map (depRecOf deploys.cols)
  else []

/-- The deployments required columns, in the order the check loop visits
them (line 1650). -/
def depRequired : List String :=
  ["deploymentID", "latitude", "longitude", "deploymentStart",
    "deploymentEnd"]

/-- Is the given required deployments field missing in this row? -/
def depColIsNa (col : String) (x : DepRec) : Bool :=
  if col = "deploymentID" then x.deploymentID.isNone
  else if col = "latitude" then x.latitude.isNone
  else if col = "longitude" then x.longitude.isNone
  else if col = "deploymentStart" then x.deploymentStart.isNone
  else x.deploymentEnd.isNone

/-- The deployments required-field check (lines 1649–1708): the loop raises
at the first column with any missing value, naming it with the missing and
total row counts. -/
def depCheck (recs : List DepRec) : Option PErr :=
  match depRequired.find? (fun col => recs.any (depColIsNa col)) with
  | some col =>
    some (.depMissing col (recs.filter (depColIsNa col)).length recs.length)
  | none => none

/-- Stable insertion of `a` after every element `le`-below-or-equal it. -/
def insertLe {α : Type} (le : α → α → Bool) (a : α) : List α → List α
  | [] => [a]
  | b :: t => if le b a then b :: insertLe le a t else a :: b :: t

/-- Stable sort by a boolean total preorder (the model of
`sort_values(sort_cols)`, line 1714: ordering fully determined by the key
tuple, ties kept in input order). -/
def stableSortBy {α : Type} (le : α → α → Bool) (l : List α) : List α :=
  l.foldl (fun acc a => insertLe le a acc) []

/-- Sort key of one cell: NaN sorts after every value
(`na_position="last"`), values by their string order. -/
def cellKey (c : Cell) : Bool × String := (c.isNone, cellStr c)

/-- Lexicographic comparison of equal-length key tuples. -/
def keyLe : List (Bool × String) → List (Bool × String) → Bool
  | [], _ => true
  | _ :: _, [] => true
  | k1 :: t1, k2 :: t2 =>
    if k1.1 = k2.1 then
      if k1.2 = k2.2 then keyLe t1 t2
      else strLt k1.2 k2.2
    else !k1.1

/-- The media sort (lines 1713–1714): by the present columns among
image_id, timestamp_iso, filename, deployment_id. -/
def sortRows (sortCols : List String) (rows : List Row) : List Row :=
  stableSortBy (fun a b =>
    keyLe (sortCols.map fun c => cellKey (getCell a c))
      (sortCols.map fun c => cellKey (getCell b c))) rows

/-- `img_sorted` (lines 1713–1714): the images rows sorted by the present
sort columns, or unsorted when none of them exists. -/
def sortedImages (images : Table) : List Row :=
  let sortCols := ["image_id", "timestamp_iso", "filename",
    "deployment_id"].filter (· ∈ images.cols)
  if sortCols.isEmpty then images.rows else sortRows sortCols images.rows

/-- Occurrence count stored for a duplicate id so far. -/
def occVal (occ : List (Cell × Nat)) (c : Cell) : Nat :=
  ((occ.lookup c).getD 0)

/-- `within[iid] = within.get(iid, 0) + 1` (line 1723). -/
def bumpOcc (occ : List (Cell × Nat)) (c : Cell) :
    List (Cell × Nat) × Nat :=
  match occ.lookup c with
  | some n => (occ.map fun p => if p.1 = c then (p.1, n + 1) else p, n + 1)
  | none => ((c, 1) :: occ, 1)

/-- The mediaID assignment loop (lines 1718–1727): a duplicated image_id
gets `f"{iid}_{within[iid]:02d}"`; a unique id is kept verbatim (a NaN id
stays NaN and fails the later required check). -/
def assignGo (dupP : Cell → Bool) :
    List Row → List (Cell × Nat) → List (Row × Cell)
  | [], _ => []
  | r :: rs, occ =>
    let c := getCell r "image_id"
    if dupP c then
      let bn := bumpOcc occ c
      (r, some (cellStr c ++ "_" ++ pad2 bn.2)) :: assignGo dupP rs bn.1
    else (r, c) :: assignGo dupP rs occ

/-- The mediaID column (lines 1716–1729): with an `image_id` column,
duplicate-aware suffixing over the sorted rows; without one, synthesized
sequential ids `m000001, m000002, …`. -/
def assignMediaIds (cols : List String) (sorted : List Row) :
    List (Row × Cell) :=
  if "image_id" ∈ cols then
    assignGo
      (fun c => 1 < (sorted.filter fun r => getCell r "image_id" = c).length)
      sorted []
  else sorted.enum.map fun p => (p.2, some ("m" ++ pad6 (p.1 + 1)))

/-- One med_out row (lines 1731–1741, required fields): deploymentID and
filePath through `DataFrame.get` (all-NaN when the column is absent),
fileMediatype from the filename extension (the octet-stream constant when
no filename column exists), filePublic the constant `False`. -/
def mkMedRec (cols : List String) (p : Row × Cell) : MedRec :=
  { mediaID := p.2,
    deploymentID :=
      if "deployment_id" ∈ cols then getCell p.1 "deployment_id" else none,
    timestamp := getCell p.1 "timestamp_iso",
    filePath := if "location" ∈ cols then getCell p.1 "location" else none,
    fileMediatype :=
      if "filename" ∈ cols then
        some (ext_to_mediatype (cellStr (getCell p.1 "filename")))
      else some "application/octet-stream",
    filePublic := false }

/-- The media required columns in check order (line 1789). -/
def medRequired : List String :=
  ["mediaID", "deploymentID", "timestamp", "filePath", "fileMediatype",
    "filePublic"]

/-- Is the given required media field missing?  (`filePublic` is a boolean
constant and never missing.) -/
def medColIsNa (col : String) (x : MedRec) : Bool :=
  if col = "mediaID" then x.mediaID.isNone
  else if col = "deploymentID" then x.deploymentID.isNone
  else if col = "timestamp" then x.timestamp.isNone
  else if col = "filePath" then x.filePath.isNone
  else if col = "fileMediatype" then x.fileMediatype.isNone
  else false

/-- The media required-field check (lines 1788–1843). -/
def medCheck (recs : List MedRec) : Option PErr :=
  match medRequired.find? (fun col => recs.any (medColIsNa col)) with
  | some col =>
    some (.medMissing col (recs.filter (medColIsNa col)).length recs.length)
  | none => none

/-- The mediaID uniqueness check (lines 1844–1846): any remaining duplicate
raises, listing up to 10 duplicated values. -/
def medDupCheck (recs : List MedRec) : Option PErr :=
  let ids := recs.map (·.mediaID)
  if ids.Nodup then none
  else some (.medDuplicate (((ids.filter fun c => 1 < ids.count c).dedup).take 10))

/-- The taxonomy fields of a row as the classifier's `row.get(k, "")` reads
them. -/
def taxRowOf (cols : List String) (r : Row) : TaxRow :=
  { common_name := rowGetStr cols r "common_name",
    scientific_name_norm := rowGetStr cols r "scientific_name_norm",
    genus := rowGetStr cols r "genus",
    family := rowGetStr cols r "family",
    order := rowGetStr cols r "order",
    class_name := rowGetStr cols r "class" }

/-- One obs_out row (lines 1854–1885, required fields plus the classifier
outputs).  Event start/end (`_to_evt_iso`): an explicit `start_time` /
`end_time` value is converted with the deployment's timezone; an empty or
whitespace-only value falls back to the row's `timestamp_iso`; a NaN value
passes the `not in [None, ""]` test as the string `"nan"` and converts to
NA. -/
def mkObsRec (cols : List String) (pairs : List (Cell × Cell))
    (hint : String) (p : Row × Cell) : ObsRec :=
  let tz := depTzFor pairs hint (getCell p.1 "deployment_id")
  let ts := getCell p.1 "timestamp_iso"
  let ev : String → Cell := fun timeCol =>
    if timeCol ∈ cols then
      match getCell p.1 timeCol with
      | none => none
      | some s => if pyStrip s = "" then ts else to_iso_utc (some s) tz
    else ts
  let cl := classify_observation_and_scientific_name (taxRowOf cols p.1)
  { observationID := some ("obs_" ++ cellStr p.2),
    deploymentID :=
      if "deployment_id" ∈ cols then getCell p.1 "deployment_id" else none,
    mediaID := p.2,
    eventStart := ev "start_time",
    eventEnd := ev "end_time",
    observationLevel := some "media",
    observationType := some cl.1,
    scientificName := some cl.2 }

/-- The observations required columns in check order (line 2073). -/
def obsRequired : List String :=
  ["observationID", "deploymentID", "eventStart", "eventEnd",
    "observationLevel", "observationType"]

/-- Is the given required observations field missing? -/
def obsColIsNa (col : String) (x : ObsRec) : Bool :=
  if col = "observationID" then x.observationID.isNone
  else if col = "deploymentID" then x.deploymentID.isNone
  else if col = "eventStart" then x.eventStart.isNone
  else if col = "eventEnd" then x.eventEnd.isNone
  else if col = "observationLevel" then x.observationLevel.isNone
  else x.observationType.isNone

/-- The observations required-field check (lines 2072–2075). -/
def obsCheck (recs : List ObsRec) : Option PErr :=
  match obsRequired.find? (fun col => recs.any (obsColIsNa col)) with
  | some col => some (.obsMissing col)
  | none => none

/-- `process_zip` (processor.py lines 1001–2178), from the loaded zip
members to either a raised error or the three built tables plus the written
artifacts.  Stage order follows the source: load → taxonomy gate →
deployment timestamp normalization → image timestamp/name normalization →
dep_out build and check → media sort, mediaID assignment, build, checks →
obs_out build and check → write (success only).  `validate`, `make_zip`,
`overwrite` and the two callbacks do not influence the built tables or the
raised errors (the validation adapter catches everything, line 2160) and
are not parameters of the model. -/
def process_zip (members : List (String × Table)) (timezone_hint : String) :
    Except PErr POut :=
  let deploys0 := loadCsvFromZip members "deploy"
  let images0 := loadCsvFromZip members "images"
  match gateCheck images0 with
  | some groups => Except.error (.gateTaxonomy groups)
  | none =>
    match depDatesStep deploys0 timezone_hint with
    | Except.error e => Except.error e
    | Except.ok deploys =>
      let pairs := depTz deploys
      let images1 := addTimestampIso images0 pairs timezone_hint
      let images2 := mapColumn images1 "genus" fun c =>
        some (pyCapitalize (pyStrip (cellOrEmpty c)))
      let images3 := mapColumn images2 "species" fun c =>
        some (pyLower (pyStrip (cellOrEmpty c)))
      match addSciNorm images3 with
      | Except.error e => Except.error e
      | Except.ok images =>
        let depRows := buildDepRows deploys
        match depCheck depRows with
        | some e => Except.error e
        | none =>
          let withIds := assignMediaIds images.cols (sortedImages images)
          let medRows := withIds.map (mkMedRec images.cols)
          match medCheck medRows with
          | some e => Except.error e
          | none =>
            match medDupCheck medRows with
            | some e => Except.error e
            | none =>
              if withIds.isEmpty then
                Except.error (.keyError "event expand")
              else
                let obsRows :=
                  withIds.map (mkObsRec images.cols pairs timezone_hint)
                match obsCheck obsRows with
                | some e => Except.error e
                | none => Except.ok ⟨depRows, medRows, obsRows, artifactNames⟩

/-! ## Concrete example inputs (used to instantiate the theorems) -/

/-- Header of a minimal Wildlife Insights images export. -/
def exampleImageCols : List String :=
  ["image_id", "deployment_id", "timestamp", "filename", "location",
    "genus", "species", "common_name", "family", "order", "class"]

/-- One complete image row. -/
def exampleImageRow : Row :=
  [("image_id", some "i1"), ("deployment_id", some "d1"),
    ("timestamp", some "2024-01-15 10:00:00"), ("filename", some "a.jpg"),
    ("location", some "gs://x/a.jpg"), ("genus", some "Panthera"),
    ("species", some "onca"), ("common_name", some "Jaguar"),
    ("family", some "Felidae"), ("order", some "Carnivora"),
    ("class", some "Mammalia")]

/-- An image row whose genus is the "No CV Result" sentinel. -/
def imageRowNoCv : Row :=
  [("image_id", some "i2"), ("deployment_id", some "d1"),
    ("timestamp", some "2024-01-15 11:00:00"), ("filename", some "b.jpg"),
    ("location", some "gs://x/b.jpg"), ("genus", some "No CV Result"),
    ("species", some "x"), ("common_name", some "Jaguar"),
    ("family", some "Felidae"), ("order", some "Carnivora"),
    ("class", some "Mammalia")]

/-- First of two rows sharing `image_id="IMG001"`. -/
def imageRowDupA : Row :=
  [("image_id", some "IMG001"), ("deployment_id", some "d1"),
    ("timestamp", some "2024-01-15 10:00:00"), ("filename", some "a.jpg"),
    ("location", some "gs://x/a.jpg"), ("genus", some "Panthera"),
    ("species", some "onca"), ("common_name", some "Jaguar"),
    ("family", some "Felidae"), ("order", some "Carnivora"),
    ("class", some "Mammalia")]

/-- Second of two rows sharing `image_id="IMG001"`. -/
def imageRowDupB : Row :=
  [("image_id", some "IMG001"), ("deployment_id", some "d1"),
    ("timestamp", some "2024-01-15 11:00:00"), ("filename", some "b.jpg"),
    ("location", some "gs://x/b.jpg"), ("genus", some "Panthera"),
    ("species", some "onca"), ("common_name", some "Jaguar"),
    ("family", some "Felidae"), ("order", some "Carnivora"),
    ("class", some "Mammalia")]

/-- The duplicate-id rows in media sort order. -/
def sortedDupRows : List Row :=
  sortRows ["image_id", "timestamp_iso", "filename", "deployment_id"]
    [imageRowDupB, imageRowDupA]

/-- Header of a minimal deployments export. -/
def exampleDeployCols : List String :=
  ["deployment_id", "start_date", "end_date", "latitude", "longitude"]

/-- One complete deployment row. -/
def exampleDeployRow : Row :=
  [("deployment_id", some "d1"), ("start_date", some "01/01/2024 08:00"),
    ("end_date", some "01/02/2024 18:00"), ("latitude", some "4.5"),
    ("longitude", some "-74.0")]

/-- A deployment row with a missing `end_date`. -/
def deployRowMissingEnd : Row :=
  [("deployment_id", some "d1"), ("start_date", some "01/01/2024 08:00"),
    ("end_date", none), ("latitude", some "4.5"),
    ("longitude", some "-74.0")]

/-- A deployment row with the out-of-range latitude `95.0`. -/
def deployRowBadLat : Row :=
  [("deployment_id", some "d1"), ("start_date", some "01/01/2024 08:00"),
    ("end_date", some "01/02/2024 18:00"), ("latitude", some "95.0"),
    ("longitude", some "-74.0")]

/-- A complete, valid zip: all four members present. -/
def exampleMembers : List (String × Table) :=
  [("projects.csv", emptyTable), ("cameras.csv", emptyTable),
    ("deployments.csv", ⟨exampleDeployCols, [exampleDeployRow]⟩),
    ("images_1.csv", ⟨exampleImageCols, [exampleImageRow]⟩)]

/-- A zip with no member containing "deploy". -/
def membersNoDeploy : List (String × Table) :=
  [("projects.csv", emptyTable), ("cameras.csv", emptyTable),
    ("images_1.csv", ⟨exampleImageCols, [exampleImageRow]⟩)]

/-- A zip with no member containing "images". -/
def membersNoImages : List (String × Table) :=
  [("projects.csv", emptyTable), ("cameras.csv", emptyTable),
    ("deployments.csv", ⟨exampleDeployCols, [exampleDeployRow]⟩)]

/-- A zip whose deployments table lacks `end_date` on its one row. -/
def membersMissingEnd : List (String × Table) :=
  [("deployments.csv", ⟨exampleDeployCols, [deployRowMissingEnd]⟩),
    ("images_1.csv", ⟨exampleImageCols, [exampleImageRow]⟩)]

/-- A zip whose deployments table has latitude `95.0`. -/
def membersBadLat : List (String × Table) :=
  [("deployments.csv", ⟨exampleDeployCols, [deployRowBadLat]⟩),
    ("images_1.csv", ⟨exampleImageCols, [exampleImageRow]⟩)]

/-- A zip whose images table contains a "No CV Result" row. -/
def membersNoCv : List (String × Table) :=
  [("deployments.csv", ⟨exampleDeployCols, [exampleDeployRow]⟩),
    ("images_1.csv", ⟨exampleImageCols, [exampleImageRow, imageRowNoCv]⟩)]

/-! # Theorems -/

/-! ## Slugification (claim C8) -/

theorem isSlugChar_cases {c : Char} (h : isSlugChar c = true) :
    (97 ≤ c.toNat ∧ c.toNat ≤ 122) ∨ (48 ≤ c.toNat ∧ c.toNat ≤ 57) ∨
      c.toNat = 45 ∨ c.toNat = 46 ∨ c.toNat = 47 := by
  simp only [isSlugChar, Bool.or_eq_true, Bool.and_eq_true, decide_eq_true_eq,
    beq_iff_eq] at h
  tauto

theorem nfkdAsciiChar_ascii {c : Char} (h : c.toNat < 128) :
    nfkdAsciiChar c = [c] := by
  unfold nfkdAsciiChar
  rw [if_pos h]

theorem flatten_map_nfkd {l : List Char} (h : ∀ c ∈ l, c.toNat < 128) :
    (l.map nfkdAsciiChar).flatten = l := by
  induction l with
  | nil => rfl
  | cons a t ih =>
    simp only [List.map_cons, List.flatten_cons,
      nfkdAsciiChar_ascii (h a (by simp)), List.cons_append, List.nil_append,
      List.cons.injEq, true_and]
    exact ih fun c hc => h c (by simp [hc])

theorem map_fix {α : Type} {f : α → α} {l : List α} (h : ∀ a ∈ l, f a = a) :
    l.map f = l := by
  induction l with
  | nil => rfl
  | cons a t ih =>
    simp only [List.map_cons, h a (by simp), List.cons.injEq, true_and]
    exact ih fun c hc => h c (by simp [hc])

theorem filter_fix {α : Type} {p : α → Bool} {l : List α}
    (h : ∀ a ∈ l, p a = true) : l.filter p = l := by
  induction l with
  | nil => rfl
  | cons a t ih =>
    simp only [List.filter_cons, h a (by simp), if_pos]
    exact congrArg _ (ih fun c hc => h c (by simp [hc]))

theorem slug_not_space {c : Char} (h : isSlugChar c = true) :
    (if c == ' ' || c == '_' then '-' else c) = c := by
  rw [if_neg]
  intro hc
  rcases Bool.or_eq_true _ _ |>.mp hc with hc' | hc' <;>
  · rw [eq_of_beq hc'] at h
    exact absurd h (by decide)

theorem slug_lower_fix {c : Char} (h : isSlugChar c = true) :
    pyLowerChar c = c := by
  unfold pyLowerChar
  rw [if_neg]
  rcases isSlugChar_cases h with h' | h' | h' | h' | h' <;> omega

theorem slug_ascii {c : Char} (h : isSlugChar c = true) : c.toNat < 128 := by
  rcases isSlugChar_cases h with h' | h' | h' | h' | h' <;> omega

theorem slugifyChars_mem {l : List Char} {c : Char}
    (h : c ∈ slugifyChars l) : isSlugChar c = true := by
  unfold slugifyChars at h
  have h1 : c ∈ (((l.map nfkdAsciiChar).flatten.map
      fun c => if c == ' ' || c == '_' then '-' else c).map
        pyLowerChar).filter isSlugChar := by
    have h2 := (List.rdropWhile_prefix isSepChar _).sublist.subset h
    exact (List.dropWhile_suffix isSepChar).sublist.subset h2
  exact (List.mem_filter.mp h1).2

theorem slugifyChars_fix {l : List Char}
    (hall : ∀ c ∈ l, isSlugChar c = true)
    (hhead : ∀ h : 0 < l.length, isSepChar (l.get ⟨0, h⟩) = false)
    (hlast : ∀ h : l ≠ [], isSepChar (l.getLast h) = false) :
    slugifyChars l = l := by
  show (((((l.map nfkdAsciiChar).flatten.map
    fun c => if c == ' ' || c == '_' then '-' else c).map
      pyLowerChar).filter isSlugChar).dropWhile isSepChar).rdropWhile
        isSepChar = l
  rw [flatten_map_nfkd fun c hc => slug_ascii (hall c hc)]
  rw [map_fix fun c hc => slug_not_space (hall c hc)]
  rw [map_fix fun c hc => slug_lower_fix (hall c hc)]
  rw [filter_fix hall]
  rw [List.dropWhile_eq_self_iff.mpr (by simpa using hhead)]
  rw [List.rdropWhile_eq_self_iff.mpr (by simpa using hlast)]

theorem rdropWhile_head_eq {α : Type} {p : α → Bool} {l : List α}
    (h : 0 < (l.rdropWhile p).length) (h' : 0 < l.length) :
    (l.rdropWhile p).get ⟨0, h⟩ = l.get ⟨0, h'⟩ := by
  obtain ⟨t, ht⟩ := List.rdropWhile_prefix p l
  have h0 : (List.rdropWhile p l ++ t)[0]? = (List.rdropWhile p l)[0]? :=
    List.getElem?_append_left h
  rw [ht] at h0
  have h2 : some ((List.rdropWhile p l).get ⟨0, h⟩) = some (l.get ⟨0, h'⟩) := by
    rw [List.get_eq_getElem, List.get_eq_getElem, ← List.getElem?_eq_getElem,
      ← List.getElem?_eq_getElem, h0]
  exact Option.some.inj h2

theorem trim_head_not {α : Type} {p : α → Bool} {X : List α}
    (h : 0 < ((X.dropWhile p).rdropWhile p).length) :
    p (((X.dropWhile p).rdropWhile p).get ⟨0, h⟩) = false := by
  have h' : 0 < (X.dropWhile p).length := by
    obtain ⟨t, ht⟩ := List.rdropWhile_prefix p (X.dropWhile p)
    have := List.IsPrefix.length_le ⟨t, ht⟩
    omega
  rw [rdropWhile_head_eq h h']
  have := List.dropWhile_get_zero_not p X h'
  simpa using this

theorem trim_last_not {α : Type} {p : α → Bool} {X : List α}
    (h : (X.dropWhile p).rdropWhile p ≠ []) :
    p (((X.dropWhile p).rdropWhile p).getLast h) = false := by
  have := List.rdropWhile_last_not p (X.dropWhile p) h
  simpa using this

theorem slugifyChars_head_not_sep {l : List Char}
    (h : 0 < (slugifyChars l).length) :
    isSepChar ((slugifyChars l).get ⟨0, h⟩) = false :=
  trim_head_not h

theorem slugifyChars_last_not_sep {l : List Char}
    (h : slugifyChars l ≠ []) :
    isSepChar ((slugifyChars l).getLast h) = false :=
  trim_last_not h

theorem slug_alnum {c : Char} (h1 : isSlugChar c = true)
    (h2 : isSepChar c = false) : isAlnumLower c = true := by
  have h2' : ¬(c.toNat = 45 ∨ c.toNat = 46 ∨ c.toNat = 47) := by
    intro hc
    rcases hc with hc | hc | hc <;>
      simp [isSepChar, hc] at h2
  simp only [isAlnumLower, Bool.or_eq_true, Bool.and_eq_true, decide_eq_true_eq]
  rcases isSlugChar_cases h1 with h' | h' | h' | h' | h' <;> [skip; skip;
    exact absurd (Or.inl h') h2'; exact absurd (Or.inr (Or.inl h')) h2';
    exact absurd (Or.inr (Or.inr h')) h2'] <;> tauto

theorem get_zero_of_eq_cons {α : Type} {l : List α} {c : α} {cs : List α}
    (h : l = c :: cs) (h0 : 0 < l.length) : l.get ⟨0, h0⟩ = c := by
  subst h
  rfl

/-- C8: `_slugify_name` is idempotent — `slugify(slugify(s)) = slugify(s)`
for every string `s` — and its result either matches
`^[a-z0-9][a-z0-9\-./]*$` or is the fixed fallback `"wi-project"`, which is
returned exactly when the cleaned result is empty. -/
theorem C8_slugify_idempotent_and_shape (s : String) :
    slugify_name (slugify_name s) = slugify_name s ∧
      (isSlugShape (slugify_name s) = true ∨ slugify_name s = "wi-project") := by
  by_cases hE : slugifyChars s.toList = []
  · have h1 : slugify_name s = "wi-project" := by
      unfold slugify_name
      rw [hE]
      rfl
    constructor
    · rw [h1]
      decide
    · right
      exact h1
  · have h1 : slugify_name s = String.mk (slugifyChars s.toList) := by
      unfold slugify_name
      rw [if_neg]
      simpa [List.isEmpty_iff] using hE
    have hfix : slugifyChars (String.mk (slugifyChars s.toList)).toList =
        slugifyChars s.toList := by
      have ht : (String.mk (slugifyChars s.toList)).toList =
          slugifyChars s.toList := rfl
      rw [ht]
      exact slugifyChars_fix (fun c hc => slugifyChars_mem hc)
        (fun h => slugifyChars_head_not_sep h)
        (fun h => slugifyChars_last_not_sep h)
    constructor
    · rw [h1]
      unfold slugify_name
      rw [hfix, if_neg]
      simpa [List.isEmpty_iff] using hE
    · left
      rw [h1]
      cases hr : slugifyChars s.toList with
      | nil => exact absurd hr hE
      | cons c cs =>
        have hc_mem : isSlugChar c = true :=
          slugifyChars_mem (l := s.toList) (by rw [hr]; simp)
        have h0 : 0 < (slugifyChars s.toList).length := by
          rw [hr]
          simp
        have hsep := slugifyChars_head_not_sep h0
        rw [get_zero_of_eq_cons hr h0] at hsep
        have hal := slug_alnum hc_mem hsep
        show (isAlnumLower c && (c :: cs).all isSlugChar) = true
        rw [hal, Bool.true_and, List.all_eq_true]
        intro x hx
        exact slugifyChars_mem (l := s.toList) (by rw [hr]; exact hx)

/-! ## Digit rendering lemmas -/

theorem digitChar_toNat (n : Nat) : (digitChar n).toNat = 48 + n % 10 := by
  have h : n % 10 < 10 := Nat.mod_lt _ (by omega)
  unfold digitChar
  generalize hr : n % 10 = r
  rw [hr] at h
  interval_cases r <;> rfl

theorem digitChar_digit (n : Nat) : isDigitChar (digitChar n) = true := by
  have h := digitChar_toNat n
  have h2 : n % 10 < 10 := Nat.mod_lt _ (by omega)
  simp only [isDigitChar, Bool.and_eq_true, decide_eq_true_eq]
  omega

theorem natDigitsAux_digits :
    ∀ fuel n, ∀ c ∈ natDigitsAux fuel n, isDigitChar c = true := by
  intro fuel
  induction fuel with
  | zero => intro n c hc; simp [natDigitsAux] at hc
  | succ f ih =>
    intro n c hc
    unfold natDigitsAux at hc
    split at hc
    · simp only [List.mem_singleton] at hc
      rw [hc]
      exact digitChar_digit n
    · rw [List.mem_append, List.mem_singleton] at hc
      rcases hc with hc | hc
      · exact ih _ c hc
      · rw [hc]
        exact digitChar_digit _

theorem natDigits_digits {n : Nat} : ∀ c ∈ natDigits n, isDigitChar c = true :=
  natDigitsAux_digits _ n

theorem digitsVal_cons (c : Char) (l : List Char) :
    digitsVal (c :: l) = l.foldl (fun a x => a * 10 + (x.toNat - 48))
      (c.toNat - 48) := by
  simp [digitsVal]

theorem digitsVal_zeros (k : Nat) (l : List Char) :
    digitsVal (List.replicate k '0' ++ l) = digitsVal l := by
  induction k with
  | zero => rfl
  | succ k ih =>
    rw [List.replicate_succ, List.cons_append]
    show digitsVal ('0' :: (List.replicate k '0' ++ l)) = digitsVal l
    rw [← ih]
    rfl

theorem digitsVal_natDigitsAux :
    ∀ fuel n, n < fuel → digitsVal (natDigitsAux fuel n) = n := by
  intro fuel
  induction fuel with
  | zero => intro n h; omega
  | succ f ih =>
    intro n h
    unfold natDigitsAux
    split
    · rename_i h10
      show digitsVal [digitChar n] = n
      rw [digitsVal_cons]
      simp only [List.foldl_nil]
      rw [digitChar_toNat]
      omega
    · rename_i h10
      rw [show digitsVal (natDigitsAux f (n / 10) ++ [digitChar (n % 10)]) =
          digitsVal (natDigitsAux f (n / 10)) * 10 +
            ((digitChar (n % 10)).toNat - 48) from by
        simp [digitsVal, List.foldl_append]]
      rw [ih (n / 10) (by omega), digitChar_toNat]
      omega

theorem digitsVal_natDigits (n : Nat) : digitsVal (natDigits n) = n :=
  digitsVal_natDigitsAux _ n (by omega)

theorem toList_mk (l : List Char) : (String.mk l).toList = l := rfl

theorem padNat_toList (w n : Nat) :
    (padNat w n).toList =
      List.replicate (w - (natDigits n).length) '0' ++ natDigits n := rfl

theorem padNat_inj {w a b : Nat} (h : padNat w a = padNat w b) : a = b := by
  have h2 := congrArg (fun s : String => digitsVal s.toList) h
  simp only [padNat_toList, digitsVal_zeros, digitsVal_natDigits] at h2
  exact h2

theorem natDigitsAux_len_le :
    ∀ fuel n k, 1 ≤ k → n < 10 ^ k → (natDigitsAux fuel n).length ≤ k := by
  intro fuel
  induction fuel with
  | zero => intro n k _ _; simp [natDigitsAux]
  | succ f ih =>
    intro n k hk h
    unfold natDigitsAux
    split
    · simpa using hk
    · rename_i h10
      push_neg at h10
      have hk2 : 2 ≤ k := by
        by_contra hc
        push_neg at hc
        interval_cases k
        omega
      rw [List.length_append, List.length_singleton]
      have hdiv : n / 10 < 10 ^ (k - 1) := by
        rw [Nat.div_lt_iff_lt_mul (by omega)]
        calc n < 10 ^ k := h
        _ = 10 ^ (k - 1) * 10 := by
            rw [← Nat.pow_succ]
            congr 1
            omega
      have := ih (n / 10) (k - 1) (by omega) hdiv
      omega

theorem natDigits_len_le {n k : Nat} (hk : 1 ≤ k) (h : n < 10 ^ k) :
    (natDigits n).length ≤ k :=
  natDigitsAux_len_le _ n k hk h

theorem padNat_len {w n : Nat} (h : (natDigits n).length ≤ w) :
    (padNat w n).toList.length = w := by
  rw [padNat_toList, List.length_append, List.length_replicate]
  omega

theorem padNat_digits {w n : Nat} :
    ∀ c ∈ (padNat w n).toList, isDigitChar c = true := by
  intro c hc
  rw [padNat_toList, List.mem_append] at hc
  rcases hc with hc | hc
  · rw [List.eq_of_mem_replicate hc]
    rfl
  · exact natDigits_digits c hc

theorem exists_list2 {l : List Char} (h : l.length = 2) :
    ∃ a b, l = [a, b] := by
  cases l with
  | nil => simp at h
  | cons a t =>
    cases t with
    | nil => simp at h
    | cons b t2 =>
      cases t2 with
      | nil => exact ⟨a, b, rfl⟩
      | cons c t3 => simp at h

theorem exists_list4 {l : List Char} (h : l.length = 4) :
    ∃ a b c d, l = [a, b, c, d] := by
  cases l with
  | nil => simp at h
  | cons a t =>
    cases t with
    | nil => simp at h
    | cons b t2 =>
      cases t2 with
      | nil => simp at h
      | cons c t3 =>
        cases t3 with
        | nil => simp at h
        | cons d t4 =>
          cases t4 with
          | nil => exact ⟨a, b, c, d, rfl⟩
          | cons e t5 => simp at h

theorem toList_append (a b : String) : (a ++ b).toList = a.toList ++ b.toList :=
  String.data_append a b

theorem toList_dash : ("-" : String).toList = ['-'] := rfl

theorem toList_colon : (":" : String).toList = [':'] := rfl

theorem toList_tsep : ("T" : String).toList = ['T'] := rfl

theorem toList_zed : ("Z" : String).toList = ['Z'] := rfl

/-! ## Rendering and localization bounds (claims C5, C6) -/

theorem renderIso_shape {t : DT} (h : renderOk t) :
    isIsoUtcShape (renderIso t) = true := by
  obtain ⟨hy, hmo, hd, hh, hmi, hs⟩ := h
  obtain ⟨a1, a2, a3, a4, hA⟩ :=
    exists_list4 (padNat_len (natDigits_len_le (by omega)
      (by omega : t.y < 10 ^ 4)))
  obtain ⟨b1, b2, hB⟩ :=
    exists_list2 (padNat_len (natDigits_len_le (by omega)
      (by omega : t.mo < 10 ^ 2)))
  obtain ⟨c1, c2, hC⟩ :=
    exists_list2 (padNat_len (natDigits_len_le (by omega)
      (by omega : t.d < 10 ^ 2)))
  obtain ⟨d1, d2, hD⟩ :=
    exists_list2 (padNat_len (natDigits_len_le (by omega)
      (by omega : t.h < 10 ^ 2)))
  obtain ⟨e1, e2, hE⟩ :=
    exists_list2 (padNat_len (natDigits_len_le (by omega)
      (by omega : t.mi < 10 ^ 2)))
  obtain ⟨f1, f2, hF⟩ :=
    exists_list2 (padNat_len (natDigits_len_le (by omega)
      (by omega : t.sec < 10 ^ 2)))
  have hR : (renderIso t).toList =
      [a1, a2, a3, a4, '-', b1, b2, '-', c1, c2, 'T', d1, d2, ':', e1, e2,
        ':', f1, f2, 'Z'] := by
    simp only [renderIso, pad2, toList_append, hA, hB, hC, hD, hE, hF,
      toList_dash, toList_colon, toList_tsep, toList_zed, List.append_assoc,
      List.cons_append, List.nil_append]
  have hApad : ∀ c ∈ [a1, a2, a3, a4], isDigitChar c = true := by
    rw [← hA]
    exact padNat_digits
  have hBpad : ∀ c ∈ [b1, b2], isDigitChar c = true := by
    rw [← hB]
    exact padNat_digits
  have hCpad : ∀ c ∈ [c1, c2], isDigitChar c = true := by
    rw [← hC]
    exact padNat_digits
  have hDpad : ∀ c ∈ [d1, d2], isDigitChar c = true := by
    rw [← hD]
    exact padNat_digits
  have hEpad : ∀ c ∈ [e1, e2], isDigitChar c = true := by
    rw [← hE]
    exact padNat_digits
  have hFpad : ∀ c ∈ [f1, f2], isDigitChar c = true := by
    rw [← hF]
    exact padNat_digits
  unfold isIsoUtcShape
  rw [hR]
  simp [List.all_cons, hApad a1 (by simp), hApad a2 (by simp),
    hApad a3 (by simp), hApad a4 (by simp), hBpad b1 (by simp),
    hBpad b2 (by simp), hCpad c1 (by simp), hCpad c2 (by simp),
    hDpad d1 (by simp), hDpad d2 (by simp), hEpad e1 (by simp),
    hEpad e2 (by simp), hFpad f1 (by simp), hFpad f2 (by simp)]

theorem dtOk_spec {t : DT} (h : dtOk t = true) :
    1678 ≤ t.y ∧ t.y ≤ 2261 ∧ 1 ≤ t.mo ∧ t.mo ≤ 12 ∧ 1 ≤ t.d ∧
      t.d ≤ daysInMonth t.y t.mo ∧ t.h ≤ 23 ∧ t.mi ≤ 59 ∧ t.sec ≤ 59 := by
  simp only [dtOk, Bool.and_eq_true, decide_eq_true_eq] at h
  tauto

theorem daysInMonth_le (y mo : Nat) : daysInMonth y mo ≤ 31 := by
  unfold daysInMonth
  split_ifs <;> omega

theorem daysInMonth_pos (y mo : Nat) : 1 ≤ daysInMonth y mo := by
  unfold daysInMonth
  split_ifs <;> omega

theorem dtOk_renderOk {t : DT} (h : dtOk t = true) : renderOk t := by
  obtain ⟨h1, h2, h3, h4, h5, h6, h7, h8, h9⟩ := dtOk_spec h
  have := daysInMonth_le t.y t.mo
  exact ⟨by omega, by omega, by omega, by omega, by omega, by omega⟩

theorem addMinutes_renderOk {t : DT} (ht : dtOk t = true) {delta : Int}
    (h1 : -1440 ≤ delta) (h2 : delta ≤ 1440) :
    renderOk (addMinutes t delta) := by
  obtain ⟨hy1, hy2, hmo1, hmo2, hd1, hd2, hh, hmi, hsec⟩ := dtOk_spec ht
  have hdim := daysInMonth_le t.y t.mo
  have hdim2 := daysInMonth_le t.y (t.mo - 1)
  have hdimp := daysInMonth_pos t.y (t.mo - 1)
  unfold addMinutes prevDay nextDay renderOk
  simp only []
  split_ifs <;>
    refine ⟨?_, ?_, ?_, ?_, ?_, ?_⟩ <;> simp only [] <;> omega

theorem zone_lookup_cases {zone : String} {z : ZoneSpec}
    (hz : zoneTable.lookup zone = some z) :
    z = bogotaZone ∨ z = utcZone ∨ z = nyZone := by
  simp only [zoneTable, List.lookup] at hz
  split at hz
  · exact Or.inl (Option.some.inj hz).symm
  · split at hz
    · exact Or.inr (Or.inl (Option.some.inj hz).symm)
    · split at hz
      · exact Or.inr (Or.inr (Option.some.inj hz).symm)
      · simp at hz

theorem localize_renderOk {t u : DT} (ht : dtOk t = true) {zone : String}
    (h : localizeToUtc t zone = some u) : renderOk u := by
  unfold localizeToUtc at h
  split at h
  · exact (Option.some.inj h) ▸ dtOk_renderOk ht
  · rename_i z hz
    rcases zone_lookup_cases hz with hc | hc | hc <;> subst hc
    · simp only [bogotaZone] at h
      exact (Option.some.inj h) ▸ addMinutes_renderOk ht (by omega) (by omega)
    · simp only [utcZone] at h
      exact (Option.some.inj h) ▸ addMinutes_renderOk ht (by omega) (by omega)
    · simp only [nyZone] at h
      split_ifs at h
      · refine (Option.some.inj h) ▸
          addMinutes_renderOk (t := nyRule.gapEnd) (by decide) (by decide)
            (by decide)
      · exact (Option.some.inj h) ▸ addMinutes_renderOk ht (by decide)
          (by decide)
      · exact (Option.some.inj h) ▸ addMinutes_renderOk ht (by decide)
          (by decide)

theorem mkDT_ok {y mo d h mi sec : Nat} {t : DT}
    (hm : mkDT y mo d h mi sec = some t) : dtOk t = true := by
  unfold mkDT at hm
  simp only [] at hm
  split at hm
  · rename_i hok
    exact (Option.some.inj hm) ▸ hok
  · simp at hm

theorem parseFixedDayFirst_ok {s : String} {dt : DT}
    (h : parseFixedDayFirst s = some dt) : dtOk dt = true := by
  unfold parseFixedDayFirst at h
  repeat' split at h
  all_goals first
    | exact mkDT_ok h
    | simp at h

theorem parseOffsetMin_bound {s : String} {o : Int}
    (h : parseOffsetMin s = some o) : 0 ≤ o ∧ o ≤ 1439 := by
  unfold parseOffsetMin at h
  repeat' split at h
  all_goals try simp_all
  all_goals omega

theorem stripTzSuffix_bound {t t0 : String} {o : Int}
    (h : stripTzSuffix t = some (t0, some o)) : -1439 ≤ o ∧ o ≤ 1439 := by
  unfold stripTzSuffix at h
  split_ifs at h
  · simp at h
  · simp only [Option.some.injEq, Prod.mk.injEq] at h
    obtain ⟨h1, h2⟩ := h
    omega
  · split at h
    · obtain ⟨o2, ho2, heq⟩ := Option.map_eq_some'.mp h
      obtain ⟨hb1, hb2⟩ := parseOffsetMin_bound ho2
      simp only [Prod.mk.injEq, Option.some.injEq] at heq
      omega
    · split at h
      · obtain ⟨o2, ho2, heq⟩ := Option.map_eq_some'.mp h
        obtain ⟨hb1, hb2⟩ := parseOffsetMin_bound ho2
        simp only [Prod.mk.injEq, Option.some.injEq] at heq
        omega
      · simp at h
      · simp at h
    · simp at h

theorem parseIso_ok {s : String} {p : ParsedStamp}
    (h : parseIso s = some p) :
    dtOk p.dt = true ∧ ∀ o, p.tzOffset = some o → -1440 ≤ o ∧ o ≤ 1440 := by
  unfold parseIso at h
  split at h
  · simp at h
  · split at h
    · simp at h
    · split_ifs at h
      · obtain ⟨t, hm, heq⟩ := Option.map_eq_some'.mp h
        subst heq
        exact ⟨mkDT_ok hm, by simp⟩
      · split at h
        · simp at h
        · rename_i t0 tz hst
          split at h
          · simp at h
          · obtain ⟨t, hm, heq⟩ := Option.map_eq_some'.mp h
            subst heq
            refine ⟨mkDT_ok hm, ?_⟩
            intro o ho
            simp only [] at ho
            rw [ho] at hst
            obtain ⟨hb1, hb2⟩ := stripTzSuffix_bound hst
            omega

theorem parseSlashed_ok {s : String} {p : ParsedStamp}
    (h : parseSlashed s = some p) :
    dtOk p.dt = true ∧ ∀ o, p.tzOffset = some o → -1440 ≤ o ∧ o ≤ 1440 := by
  unfold parseSlashed at h
  split at h
  · simp at h
  · split at h
    · split at h
      · simp only [] at h
        split_ifs at h
        all_goals try (split at h)
        all_goals try (simp only [reduceCtorEq] at h)
        all_goals obtain ⟨t, hm, heq⟩ := Option.map_eq_some'.mp h
        all_goals subst heq
        all_goals exact ⟨mkDT_ok hm, by simp⟩
      · simp at h
    · simp at h

theorem parseStamp_ok {s : String} {p : ParsedStamp}
    (h : parseStamp s = some p) :
    dtOk p.dt = true ∧ ∀ o, p.tzOffset = some o → -1440 ≤ o ∧ o ≤ 1440 := by
  unfold parseStamp at h
  split at h
  · rename_i dt hfix
    obtain rfl : ParsedStamp.mk dt none = p := Option.some.inj h
    exact ⟨parseFixedDayFirst_ok hfix, by simp⟩
  · split at h
    · rename_i p2 hiso
      obtain rfl : p2 = p := Option.some.inj h
      exact parseIso_ok hiso
    · exact parseSlashed_ok h

/-- C5: for every input value and timezone hint, `to_iso_utc` either returns
a string of the exact `"YYYY-MM-DDTHH:MM:SSZ"` shape (second precision, UTC,
literal `Z` suffix) or the null sentinel (it is a total function, modelling
that the Python original never raises); in particular the naive day-first
input `"15/01/2024 14:30"` with hint `"America/Bogota"` yields
`"2024-01-15T19:30:00Z"`. -/
theorem C5_to_iso_utc_shape :
    (∀ (value : Option String) (hint : String) (out : String),
        to_iso_utc value hint = some out → isIsoUtcShape out = true) ∧
      to_iso_utc (some "15/01/2024 14:30") "America/Bogota" =
        some "2024-01-15T19:30:00Z" := by
  constructor
  · intro v hint out h
    unfold to_iso_utc at h
    match v with
    | none => exact absurd h (by simp)
    | some raw =>
      simp only [] at h
      split_ifs at h
      split at h
      · exact absurd h (by simp)
      · rename_i p hp
        obtain ⟨hdt, htz⟩ := parseStamp_ok hp
        split at h
        · rename_i off hoff
          obtain rfl : renderIso (addMinutes p.dt (-off)) = out :=
            Option.some.inj h
          obtain ⟨hb1, hb2⟩ := htz off hoff
          exact renderIso_shape (addMinutes_renderOk hdt (by omega) (by omega))
        · obtain ⟨u, hu, hout⟩ := Option.map_eq_some'.mp h
          subst hout
          exact renderIso_shape (localize_renderOk hdt hu)
  · decide

/-- Witness for C5 at the spec's concrete input. -/
theorem C5_witness : isIsoUtcShape "2024-01-15T19:30:00Z" = true :=
  C5_to_iso_utc_shape.1 (some "15/01/2024 14:30") "America/Bogota"
    "2024-01-15T19:30:00Z" C5_to_iso_utc_shape.2

/-- C6 counterexample: the claim says an ambiguous local time (here
2024-11-03 01:30 in America/New_York, during the fall-back hour) is resolved
by shifting forward, "still returning a valid UTC instant"; in the code
`tz_localize(..., ambiguous="NaT")` produces `NaT`, whose `strftime` raises
into the enclosing `except`, so `to_iso_utc` returns the null sentinel
instead of any instant. -/
theorem C6_counterexample :
    to_iso_utc (some "2024-11-03 01:30:00") "America/New_York" = none := by
  decide

/-- C6 (amended): for a naive parsed timestamp and a hint zone carrying a
DST rule, a nonexistent local time is shifted forward to the gap's end
(still a valid UTC instant); an ambiguous local time yields the null
sentinel; and an outright localization failure (a zone outside the
database) falls back to treating the parsed instant as already UTC. -/
theorem C6_dst_resolution (raw zone : String) (p : ParsedStamp)
    (z : ZoneSpec) (r : DstRule)
    (hnz : ¬(pyStrip raw = "" ∨ pyLower (pyStrip raw) = "nan"))
    (hp : parseStamp (pyStrip raw) = some p)
    (hnaive : p.tzOffset = none)
    (hz : zoneTable.lookup zone = some z)
    (hr : z.dst = some r) :
    (inGap r p.dt = true →
        to_iso_utc (some raw) zone =
          some (renderIso (addMinutes r.gapEnd (-r.dstOffset)))) ∧
      (inGap r p.dt = false → inAmb r p.dt = true →
        to_iso_utc (some raw) zone = none) ∧
      (∀ zone2, zoneTable.lookup zone2 = none →
        to_iso_utc (some raw) zone2 = some (renderIso p.dt)) := by
  have hbase : ∀ hint, to_iso_utc (some raw) hint =
      (localizeToUtc p.dt hint).map renderIso := by
    intro hint
    unfold to_iso_utc
    simp only [hp, hnaive, if_neg hnz]
  refine ⟨?_, ?_, ?_⟩
  · intro hgap
    rw [hbase zone]
    unfold localizeToUtc
    simp [hz, hr, hgap]
  · intro hngap hamb
    rw [hbase zone]
    unfold localizeToUtc
    simp [hz, hr, hngap, hamb]
  · intro zone2 hz2
    rw [hbase zone2]
    unfold localizeToUtc
    simp [hz2]

/-- Witness for C6 (amended): the three behaviors at concrete inputs —
spring-forward gap shifted to 03:00 EDT (= 07:00 UTC), fall-back ambiguity
nulled, and an unknown zone treated as UTC. -/
theorem C6_witness :
    to_iso_utc (some "2024-03-10 02:30:00") "America/New_York" =
        some "2024-03-10T07:00:00Z" ∧
      to_iso_utc (some "2024-11-03 01:30:00") "America/New_York" = none ∧
      to_iso_utc (some "2024-06-01 12:00:00") "Mars/Olympus" =
        some "2024-06-01T12:00:00Z" := by
  have h1 := C6_dst_resolution "2024-03-10 02:30:00" "America/New_York"
    ⟨⟨2024, 3, 10, 2, 30, 0⟩, none⟩ nyZone nyRule (by decide) (by decide) rfl
    (by decide) rfl
  have h2 := C6_dst_resolution "2024-11-03 01:30:00" "America/New_York"
    ⟨⟨2024, 11, 3, 1, 30, 0⟩, none⟩ nyZone nyRule (by decide) (by decide) rfl
    (by decide) rfl
  have h3 := C6_dst_resolution "2024-06-01 12:00:00" "America/New_York"
    ⟨⟨2024, 6, 1, 12, 0, 0⟩, none⟩ nyZone nyRule (by decide) (by decide) rfl
    (by decide) rfl
  refine ⟨?_, ?_, ?_⟩
  · exact (h1.1 (by decide)).trans (by decide)
  · exact h2.2.1 (by decide) (by decide)
  · exact (h3.2.2 "Mars/Olympus" (by decide)).trans (by decide)

/-! ## Taxonomic classifier (claim C3) -/

/-- C3: the classifier follows the documented precedence.  A common name
equal (case-insensitively) to `"human"` or `"human-camera trapper"` yields
type `"human"` with the genus+species composite when present, else
`"Homo sapiens"`; for any non-sentinel common name the cascade (spec
wording) applies with type `"animal"` and the common name not consulted; in
particular `genus="Didelphis"`, `species=""`, `family="Didelphidae"` (run
through the pipeline's composite construction) yields
`("animal", "Didelphis")`, and `common_name="Human"` with empty scientific
fields yields `("human", "Homo sapiens")`. -/
theorem C3_classifier_precedence :
    (∀ row : TaxRow,
        (pyLower (pyStrip row.common_name) = "human" ∨
          pyLower (pyStrip row.common_name) = "human-camera trapper") →
        classify_observation_and_scientific_name row =
          ("human",
            if isMeaningful (pyStrip row.scientific_name_norm) then
              pyStrip row.scientific_name_norm
            else "Homo sapiens")) ∧
      (∀ row : TaxRow,
        pyLower (pyStrip row.common_name) ∉
          (["human", "human-camera trapper", "blank", "animal", "vehicle",
            "unknown", "unclassified"] : List String) →
        classify_observation_and_scientific_name row =
          ("animal",
            cascadeSpec (pyStrip row.scientific_name_norm)
              (pyStrip row.genus) (pyStrip row.family) (pyStrip row.order)
              (pyStrip row.class_name))) ∧
      classify_observation_and_scientific_name
          ⟨"", (normalizeSci "Didelphis" "").2, (normalizeSci "Didelphis" "").1,
            "Didelphidae", "", ""⟩ = ("animal", "Didelphis") ∧
      classify_observation_and_scientific_name
          ⟨"Human", (normalizeSci "" "").2, (normalizeSci "" "").1, "", "",
            ""⟩ = ("human", "Homo sapiens") := by
  refine ⟨?_, ?_, by decide, by decide⟩
  · intro row hc
    unfold classify_observation_and_scientific_name
    simp only []
    rw [if_pos hc]
  · intro row hc
    simp only [List.mem_cons, List.not_mem_nil, or_false, not_or] at hc
    obtain ⟨n1, n2, n3, n4, n5, n6, n7⟩ := hc
    unfold classify_observation_and_scientific_name cascadeSpec
    simp only []
    rw [if_neg (by tauto), if_neg n3, if_neg n4, if_neg n5, if_neg n6,
      if_neg n7]

/-- Witness for C3's universally quantified parts at a concrete row. -/
theorem C3_witness :
    classify_observation_and_scientific_name
        ⟨"Jaguar", "Panthera onca", "Panthera", "Felidae", "Carnivora",
          "Mammalia"⟩ = ("animal", "Panthera onca") :=
  (C3_classifier_precedence.2.1
    ⟨"Jaguar", "Panthera onca", "Panthera", "Felidae", "Carnivora",
      "Mammalia"⟩ (by decide)).trans (by decide)

/-! ## Pipeline check lemmas -/

theorem any_false_all {α : Type} {p : α → Bool} {l : List α}
    (h : ¬(l.any p = true)) : ∀ x ∈ l, p x = false := by
  intro x hx
  cases hb : p x with
  | false => rfl
  | true => exact absurd (List.any_eq_true.mpr ⟨x, hx, hb⟩) h

theorem depCheck_none_pop {recs : List DepRec} (h : depCheck recs = none) :
    ∀ col ∈ depRequired, ∀ x ∈ recs, depColIsNa col x = false := by
  intro col hcol x hx
  unfold depCheck at h
  split at h
  · simp at h
  · rename_i hfind
    rw [List.find?_eq_none] at hfind
    exact any_false_all (hfind col hcol) x hx

theorem medCheck_none_pop {recs : List MedRec} (h : medCheck recs = none) :
    ∀ col ∈ medRequired, ∀ x ∈ recs, medColIsNa col x = false := by
  intro col hcol x hx
  unfold medCheck at h
  split at h
  · simp at h
  · rename_i hfind
    rw [List.find?_eq_none] at hfind
    exact any_false_all (hfind col hcol) x hx

theorem obsCheck_none_pop {recs : List ObsRec} (h : obsCheck recs = none) :
    ∀ col ∈ obsRequired, ∀ x ∈ recs, obsColIsNa col x = false := by
  intro col hcol x hx
  unfold obsCheck at h
  split at h
  · simp at h
  · rename_i hfind
    rw [List.find?_eq_none] at hfind
    exact any_false_all (hfind col hcol) x hx

theorem medDupCheck_none_nodup {recs : List MedRec}
    (h : medDupCheck recs = none) : (recs.map (fun x => x.mediaID)).Nodup := by
  unfold medDupCheck at h
  simp only [] at h
  split_ifs at h with hd
  · exact hd

/-- Every successful run passed all four checks and wrote the four
artifacts. -/
theorem process_ok_spec {members : List (String × Table)} {hint : String}
    {out : POut} (h : process_zip members hint = Except.ok out) :
    depCheck out.depRows = none ∧ medCheck out.medRows = none ∧
      medDupCheck out.medRows = none ∧ obsCheck out.obsRows = none ∧
      out.artifacts = artifactNames := by
  unfold process_zip at h
  simp only [] at h
  repeat' split at h
  all_goals try (simp only [reduceCtorEq] at h)
  obtain rfl := Except.ok.inj h
  refine ⟨?_, ?_, ?_, ?_, rfl⟩ <;> simp only [] <;> assumption

/-! ## Required-field fail-fast (claim C1) -/

/-- C1: every successful run's output tables have all their required
columns fully populated (so an input on which any required output field
check fails can never reach the write stage), and every failed run leaves
no `output/` artifact — in the source all three required-field checks
(lines 1649–1708, 1788–1843, 2072–2075) precede `_ensure_work_dir` and
every `to_csv`/`json.dump` (lines 2080–2123), and the model's error branch
carries no artifacts accordingly. -/
theorem C1_required_fail_fast :
    (∀ (members : List (String × Table)) (hint : String) (out : POut),
        process_zip members hint = Except.ok out →
        (∀ col ∈ depRequired, ∀ x ∈ out.depRows, depColIsNa col x = false) ∧
          (∀ col ∈ medRequired, ∀ x ∈ out.medRows, medColIsNa col x = false) ∧
          (∀ col ∈ obsRequired, ∀ x ∈ out.obsRows,
            obsColIsNa col x = false)) ∧
      (∀ (members : List (String × Table)) (hint : String) (e : PErr),
        process_zip members hint = Except.error e →
        pipeArtifacts (process_zip members hint) = []) := by
  constructor
  · intro members hint out h
    obtain ⟨h1, h2, _, h4, _⟩ := process_ok_spec h
    exact ⟨depCheck_none_pop h1, medCheck_none_pop h2, obsCheck_none_pop h4⟩
  · intro members hint e h
    rw [h]
    rfl

/-- Witness for C1: a deployments table missing `deploymentEnd` raises the
deployments completeness error and no artifact exists afterwards. -/
theorem C1_witness :
    process_zip membersMissingEnd "America/Bogota" =
        Except.error (.depMissing "deploymentEnd" 1 1) ∧
      pipeArtifacts (process_zip membersMissingEnd "America/Bogota") = [] := by
  refine ⟨by decide, ?_⟩
  exact C1_required_fail_fast.2 membersMissingEnd "America/Bogota"
    (.depMissing "deploymentEnd" 1 1) (by decide)

/-! ## The "No CV Result" gate (claim C4) -/

theorem mem_enumFrom_of_mem {α : Type} {r : α} :
    ∀ (l : List α) (n : Nat), r ∈ l → ∃ i, (i, r) ∈ List.enumFrom n l := by
  intro l
  induction l with
  | nil => intro n h; simp at h
  | cons a t ih =>
    intro n h
    rcases List.mem_cons.mp h with h | h
    · exact ⟨n, by simp [List.enumFrom, h]⟩
    · obtain ⟨i, hi⟩ := ih (n + 1) h
      exact ⟨i, by simp [List.enumFrom, Or.inr hi]⟩

theorem noCvHits_ne_nil {images : Table} {f : String} {r : Row}
    (hr : r ∈ images.rows) (hno : isNoCv (getCell r f) = true) :
    noCvHits images f ≠ [] := by
  unfold noCvHits
  obtain ⟨i, hi⟩ := mem_enumFrom_of_mem images.rows 0 hr
  have hmem : (i, r) ∈ images.rows.enum.filter
      fun p => isNoCv (getCell p.2 f) := by
    rw [List.mem_filter]
    exact ⟨hi, hno⟩
  intro hc
  rw [List.map_eq_nil_iff] at hc
  rw [hc] at hmem
  simp at hmem

/-- The per-field group the gate builds for a field with hits. -/
theorem gateCheck_some {images : Table} {f : String} {r : Row}
    (hf : f ∈ fieldsToCheck) (hc : f ∈ images.cols) (hr : r ∈ images.rows)
    (hno : isNoCv (getCell r f) = true) :
    gateCheck images =
      some ((fieldsToCheck.filter (· ∈ images.cols)).filterMap fun f2 =>
        if (noCvHits images f2).isEmpty then none
        else some ⟨f2, (noCvHits images f2).length,
          (noCvHits images f2).take 8⟩) := by
  have hne := noCvHits_ne_nil hr hno
  unfold gateCheck
  rw [if_neg (by simp [List.isEmpty_iff]; exact List.ne_nil_of_mem hr)]
  simp only []
  rw [if_neg]
  intro hc2
  rw [List.isEmpty_iff] at hc2
  have hmem : (⟨f, (noCvHits images f).length,
      (noCvHits images f).take 8⟩ : GateGroup) ∈
      (fieldsToCheck.filter (· ∈ images.cols)).filterMap fun f2 =>
        if (noCvHits images f2).isEmpty then none
        else some ⟨f2, (noCvHits images f2).length,
          (noCvHits images f2).take 8⟩ := by
    rw [List.mem_filterMap]
    refine ⟨f, List.mem_filter.mpr ⟨hf, by simpa using hc⟩, ?_⟩
    rw [if_neg (by simpa [List.isEmpty_iff] using hne)]
  rw [hc2] at hmem
  simp at hmem

/-- C4: any "No CV Result" sentinel in a checked taxonomic field of the
images table aborts the run before any table is built, raising the gate
error whose report groups the affected rows per field, lists at most 8
example rows per field (exactly `min 8 total`), counts every affected row,
and covers exactly the checked fields that contain the sentinel; no
artifact exists afterwards. -/
theorem C4_no_cv_gate :
    ∀ (members : List (String × Table)) (hint : String) (f : String)
      (r : Row),
      f ∈ fieldsToCheck →
      f ∈ (loadCsvFromZip members "images").cols →
      r ∈ (loadCsvFromZip members "images").rows →
      isNoCv (getCell r f) = true →
      ∃ groups,
        process_zip members hint = Except.error (.gateTaxonomy groups) ∧
          groups ≠ [] ∧
          (∀ g ∈ groups,
            g.examples.length ≤ 8 ∧
              g.examples =
                (noCvHits (loadCsvFromZip members "images") g.field).take 8 ∧
              g.total =
                (noCvHits (loadCsvFromZip members "images") g.field).length ∧
              0 < g.total ∧ g.field ∈ fieldsToCheck ∧
              g.field ∈ (loadCsvFromZip members "images").cols) ∧
          (∀ f2, f2 ∈ fieldsToCheck →
            f2 ∈ (loadCsvFromZip members "images").cols →
            (∃ r2 ∈ (loadCsvFromZip members "images").rows,
              isNoCv (getCell r2 f2) = true) →
            ∃ g ∈ groups, g.field = f2) ∧
          pipeArtifacts (process_zip members hint) = [] := by
  intro members hint f r hf hc hr hno
  have hg := gateCheck_some hf hc hr hno
  have herr : process_zip members hint =
      Except.error (.gateTaxonomy
        ((fieldsToCheck.filter (· ∈ (loadCsvFromZip members "images").cols)).filterMap
          fun f2 =>
            if (noCvHits (loadCsvFromZip members "images") f2).isEmpty then
              none
            else some ⟨f2,
              (noCvHits (loadCsvFromZip members "images") f2).length,
              (noCvHits (loadCsvFromZip members "images") f2).take 8⟩)) := by
    unfold process_zip
    simp only [hg]
  refine ⟨_, herr, ?_, ?_, ?_, by rw [herr]; rfl⟩
  · intro hc2
    have hmem : (⟨f, (noCvHits (loadCsvFromZip members "images") f).length,
        (noCvHits (loadCsvFromZip members "images") f).take 8⟩ : GateGroup) ∈
        (fieldsToCheck.filter
          (· ∈ (loadCsvFromZip members "images").cols)).filterMap fun f2 =>
          if (noCvHits (loadCsvFromZip members "images") f2).isEmpty then none
          else some ⟨f2,
            (noCvHits (loadCsvFromZip members "images") f2).length,
            (noCvHits (loadCsvFromZip members "images") f2).take 8⟩ := by
      rw [List.mem_filterMap]
      refine ⟨f, List.mem_filter.mpr ⟨hf, by simpa using hc⟩, ?_⟩
      rw [if_neg (by simpa [List.isEmpty_iff] using noCvHits_ne_nil hr hno)]
    rw [hc2] at hmem
    simp at hmem
  · intro g hg2
    rw [List.mem_filterMap] at hg2
    obtain ⟨f2, hf2, heq⟩ := hg2
    rw [List.mem_filter] at hf2
    split_ifs at heq with hemp
    obtain rfl := Option.some.inj heq
    have hnz : 0 < (noCvHits (loadCsvFromZip members "images") f2).length := by
      rw [List.isEmpty_iff] at hemp
      exact List.length_pos.mpr hemp
    refine ⟨?_, rfl, rfl, hnz, hf2.1, by simpa using hf2.2⟩
    calc ((noCvHits (loadCsvFromZip members "images") f2).take 8).length
        = min 8 (noCvHits (loadCsvFromZip members "images") f2).length :=
          List.length_take 8 _
      _ ≤ 8 := Nat.min_le_left _ _
  · intro f2 hf2c hcc ⟨r2, hr2, hno2⟩
    refine ⟨⟨f2, (noCvHits (loadCsvFromZip members "images") f2).length,
      (noCvHits (loadCsvFromZip members "images") f2).take 8⟩, ?_, rfl⟩
    rw [List.mem_filterMap]
    refine ⟨f2, List.mem_filter.mpr ⟨hf2c, by simpa using hcc⟩, ?_⟩
    rw [if_neg (by simpa [List.isEmpty_iff] using noCvHits_ne_nil hr2 hno2)]

/-- Witness for C4 at a concrete input with one sentinel row. -/
theorem C4_witness :
    pipeArtifacts (process_zip membersNoCv "America/Bogota") = [] := by
  obtain ⟨groups, herr, hne, hprops, hcov, hart⟩ :=
    C4_no_cv_gate membersNoCv "America/Bogota" "genus" imageRowNoCv
      (by decide) (by decide) (by decide) (by decide)
  exact hart

/-! ## Coordinate sanitization (claim C7) -/

/-- C7: an out-of-range latitude or longitude is nulled — the built
deployment record carries `none` exactly when the parsed value is outside
the legal interval, and the unchanged value (not a clamped one) otherwise;
rows are never dropped by the coordinate step (the built list keeps one
record per source row whenever a `deployment_id` column exists); and a
nulled latitude is then treated identically to a missing one by the
required-field check, which fails the run naming `latitude` with the
missing and total row counts. -/
theorem C7_out_of_range_coords_nulled :
    (∀ (cols : List String) (r : Row) (s : String) (x : Dec10),
      "latitude" ∈ cols → getCell r "latitude" = some s →
      parseDecimal s = some x →
      (depRecOf cols r).latitude =
        if decLt x (decOfInt (-90)) ∨ decLt (decOfInt 90) x then none
        else some x) ∧
    (∀ (cols : List String) (r : Row) (s : String) (x : Dec10),
      "longitude" ∈ cols → getCell r "longitude" = some s →
      parseDecimal s = some x →
      (depRecOf cols r).longitude =
        if decLt x (decOfInt (-180)) ∨ decLt (decOfInt 180) x then none
        else some x) ∧
    (∀ deploys : Table, "deployment_id" ∈ deploys.cols →
      (buildDepRows deploys).length = deploys.rows.length) ∧
    (∀ (recs : List DepRec) (rec : DepRec),
      rec ∈ recs → rec.latitude = none →
      (∀ rec2 ∈ recs, rec2.deploymentID.isSome = true) →
      ∃ m, depCheck recs = some (.depMissing "latitude" m recs.length) ∧
        0 < m) := by
  refine ⟨?_, ?_, ?_, ?_⟩
  · intro cols r s x hcol hcell hparse
    unfold depRecOf
    simp only [if_pos hcol, hcell, Option.some_bind, hparse]
  · intro cols r s x hcol hcell hparse
    unfold depRecOf
    simp only [if_pos hcol, hcell, Option.some_bind, hparse]
  · intro deploys h
    unfold buildDepRows
    rw [if_pos h, List.length_map]
  · intro recs rec hmem hlat hall
    have h1 : recs.any (depColIsNa "deploymentID") = false := by
      rw [List.any_eq_false]
      intro rec2 h2
      have h3 := hall rec2 h2
      cases h4 : rec2.deploymentID with
      | none => rw [h4] at h3; simp at h3
      | some v => simp [depColIsNa, h4]
    have h2 : recs.any (depColIsNa "latitude") = true :=
      List.any_eq_true.mpr ⟨rec, hmem, by simp [depColIsNa, hlat]⟩
    have hfind : depRequired.find?
        (fun col => recs.any (depColIsNa col)) = some "latitude" := by
      unfold depRequired
      simp only [List.find?_cons, h1, h2]
    refine ⟨(recs.filter (depColIsNa "latitude")).length, ?_, ?_⟩
    · unfold depCheck
      rw [hfind]
    · apply List.length_pos.mpr
      apply List.ne_nil_of_mem (a := rec)
      rw [List.mem_filter]
      exact ⟨hmem, by simp [depColIsNa, hlat]⟩

/-- Witness for C7: latitude `"95.0"` parses to 95.0, is nulled by the
record builder, and the concrete run fails with the completeness error on
`latitude`. -/
theorem C7_witness :
    (depRecOf exampleDeployCols deployRowBadLat).latitude = none ∧
    process_zip membersBadLat "America/Bogota" =
      Except.error (.depMissing "latitude" 1 1) := by
  refine ⟨?_, by decide⟩
  have h := C7_out_of_range_coords_nulled.1 exampleDeployCols
    deployRowBadLat "95.0" ⟨950, 1⟩ (by decide) (by decide) (by decide)
  rw [h, if_pos (by decide)]

/-! ## mediaID deduplication (claim C2) -/

theorem bumpOcc_snd (occ : List (Cell × Nat)) (c : Cell) :
    (bumpOcc occ c).2 = occVal occ c + 1 := by
  unfold bumpOcc occVal
  cases h : List.lookup c occ <;> simp [h]

theorem lookup_map_bump (c : Cell) (n : Nat) :
    ∀ (occ : List (Cell × Nat)),
      List.lookup c (occ.map fun p => if p.1 = c then (p.1, n) else p) =
        (List.lookup c occ).map fun _ => n := by
  intro occ
  induction occ with
  | nil => rfl
  | cons a t ih =>
    by_cases h : a.1 = c
    · simp only [List.map_cons, if_pos h]
      have hb : (c == a.1) = true := beq_iff_eq.mpr h.symm
      simp [List.lookup, hb]
    · simp only [List.map_cons, if_neg h]
      have hb : (c == a.1) = false :=
        beq_eq_false_iff_ne.mpr fun hcc => h hcc.symm
      simp [List.lookup, hb, ih]

theorem lookup_map_bump_ne (c c2 : Cell) (h : c ≠ c2) (n : Nat) :
    ∀ (occ : List (Cell × Nat)),
      List.lookup c (occ.map fun p => if p.1 = c2 then (p.1, n) else p) =
        List.lookup c occ := by
  intro occ
  induction occ with
  | nil => rfl
  | cons a t ih =>
    by_cases h2 : a.1 = c2
    · have h3 : (c == a.1) = false :=
        beq_eq_false_iff_ne.mpr fun hc3 => h (hc3.trans h2)
      simp only [List.map_cons, if_pos h2]
      simp [List.lookup, h3, ih]
    · simp only [List.map_cons, if_neg h2]
      cases hca : c == a.1 <;> simp [List.lookup, hca, ih]

theorem occVal_bump_self (occ : List (Cell × Nat)) (c : Cell) :
    occVal (bumpOcc occ c).1 c = occVal occ c + 1 := by
  unfold bumpOcc
  cases h : List.lookup c occ with
  | none => simp [occVal, List.lookup, h]
  | some n => simp [occVal, lookup_map_bump, h]

theorem occVal_bump_ne (c c2 : Cell) (h : c ≠ c2)
    (occ : List (Cell × Nat)) :
    occVal (bumpOcc occ c2).1 c = occVal occ c := by
  unfold bumpOcc
  cases h2 : List.lookup c2 occ with
  | none =>
    have h3 : (c == c2) = false := beq_eq_false_iff_ne.mpr h
    simp [occVal, List.lookup, h3]
  | some n => simp [occVal, lookup_map_bump_ne c c2 h (n + 1)]

/-- Over the sorted rows, the suffixed ids handed to the rows carrying a
duplicated image id `c` are `pad2` counters continuing from the occurrence
count already stored for `c`. -/
theorem assignGo_filter (dupP : Cell → Bool) (c : Cell) (hd : dupP c = true) :
    ∀ (rows : List Row) (occ : List (Cell × Nat)),
      ((assignGo dupP rows occ).filter
          fun p => getCell p.1 "image_id" = c).map (fun p => p.2) =
        (List.range
            (rows.filter fun r => getCell r "image_id" = c).length).map
          fun i => some (cellStr c ++ "_" ++ pad2 (occVal occ c + i + 1)) := by
  intro rows
  induction rows with
  | nil => intro occ; rfl
  | cons r rs ih =>
    intro occ
    simp only [assignGo]
    by_cases hc : getCell r "image_id" = c
    · rw [hc, hd, if_pos rfl]
      rw [List.filter_cons, if_pos (by simp [hc])]
      rw [List.map_cons]
      rw [List.filter_cons, if_pos (by simp [hc])]
      rw [List.length_cons, List.range_succ_eq_map, List.map_cons,
        List.map_map]
      rw [ih]
      congr 1
      · simp [bumpOcc_snd]
      · apply List.map_congr_left
        intro i _
        simp only [Function.comp_apply, Nat.succ_eq_add_one]
        rw [occVal_bump_self]
        have he : occVal occ c + 1 + i + 1 = occVal occ c + (i + 1) + 1 := by
          omega
        rw [he]
    · cases hdup : dupP (getCell r "image_id") with
      | true =>
        rw [if_pos rfl]
        rw [List.filter_cons, if_neg (by simp [hc])]
        rw [ih]
        rw [List.filter_cons, if_neg (by simp [hc])]
        simp only [occVal_bump_ne c (getCell r "image_id") (Ne.symm hc)]
      | false =>
        rw [if_neg (by simp)]
        rw [List.filter_cons, if_neg (by simp [hc])]
        rw [ih]
        rw [List.filter_cons, if_neg (by simp [hc])]

/-- C2: over the sorted image rows a duplicated image id receives the
two-digit occurrence suffixes `_01`, `_02`, … in sorted order (the ids
handed to its rows are exactly the counters `1..k` rendered through
`pad2`); in particular the two rows sharing `image_id="IMG001"` yield
mediaIDs `IMG001_01` and `IMG001_02`; and every successful run's media
table has pairwise-distinct mediaID values (a remaining duplicate raises
instead). -/
theorem C2_media_id_dedup :
    (∀ (cols : List String) (sorted : List Row) (c : Cell),
      "image_id" ∈ cols →
      1 < (sorted.filter fun r => getCell r "image_id" = c).length →
      ((assignMediaIds cols sorted).filter
          fun p => getCell p.1 "image_id" = c).map (fun p => p.2) =
        (List.range
            (sorted.filter fun r => getCell r "image_id" = c).length).map
          fun i => some (cellStr c ++ "_" ++ pad2 (i + 1))) ∧
    ((assignMediaIds exampleImageCols sortedDupRows).map (fun p => p.2) =
      [some "IMG001_01", some "IMG001_02"]) ∧
    (∀ (members : List (String × Table)) (hint : String) (out : POut),
      process_zip members hint = Except.ok out →
      (out.medRows.map fun x => x.mediaID).Nodup) := by
  refine ⟨?_, by decide, ?_⟩
  · intro cols sorted c hcol hdup
    unfold assignMediaIds
    rw [if_pos hcol]
    rw [assignGo_filter _ c (decide_eq_true hdup) sorted []]
    apply List.map_congr_left
    intro i _
    have he : occVal ([] : List (Cell × Nat)) c + i + 1 = i + 1 := by
      simp [occVal]
    rw [he]
  · intro members hint out h
    exact medDupCheck_none_nodup (process_ok_spec h).2.2.1

/-- Witness for C2: the numbering applied to the concrete duplicated pair,
and the uniqueness property at a concrete successful run. -/
theorem C2_witness :
    (((assignMediaIds exampleImageCols sortedDupRows).filter
        fun p => getCell p.1 "image_id" = some "IMG001").map (fun p => p.2) =
      [some "IMG001_01", some "IMG001_02"]) ∧
    ∃ out, process_zip exampleMembers "America/Bogota" = Except.ok out ∧
      (out.medRows.map fun x => x.mediaID).Nodup := by
  constructor
  · rw [C2_media_id_dedup.1 exampleImageCols sortedDupRows (some "IMG001")
      (by decide) (by decide)]
    decide
  · cases hp : process_zip exampleMembers "America/Bogota" with
    | error e =>
      have hok : pipeOk (process_zip exampleMembers "America/Bogota") =
          true := by decide
      rw [hp] at hok
      exact absurd hok (by simp [pipeOk])
    | ok out =>
      exact ⟨out, rfl,
        C2_media_id_dedup.2.2 exampleMembers "America/Bogota" out hp⟩

/-! ## Synthesized mediaIDs without an image_id column (claim C10) -/

/-- C10: without an `image_id` column the assignment does not fail — every
sorted row is kept (same rows, same order, same count) and receives the
synthesized id `m` followed by the 1-based row counter zero-padded to six
digits, and these ids are pairwise distinct. -/
theorem C10_synthesized_media_ids :
    ∀ (cols : List String) (sorted : List Row),
      "image_id" ∉ cols →
      (assignMediaIds cols sorted).map (fun p => p.2) =
        (List.range sorted.length).map
          (fun i => some ("m" ++ pad6 (i + 1))) ∧
      (assignMediaIds cols sorted).map (fun p => p.1) = sorted ∧
      ((assignMediaIds cols sorted).map (fun p => p.2)).Nodup := by
  intro cols sorted h
  have h1 : (assignMediaIds cols sorted).map (fun p => p.2) =
      (List.range sorted.length).map fun i => some ("m" ++ pad6 (i + 1)) := by
    unfold assignMediaIds
    rw [if_neg h, List.map_map]
    rw [show ((fun p : Row × Cell => p.2) ∘
        fun p : Nat × Row => (p.2, some ("m" ++ pad6 (p.1 + 1)))) =
        ((fun i : Nat => some ("m" ++ pad6 (i + 1))) ∘ Prod.fst) from rfl]
    rw [← List.map_map, List.enum_map_fst]
  have h2 : (assignMediaIds cols sorted).map (fun p => p.1) = sorted := by
    unfold assignMediaIds
    rw [if_neg h, List.map_map]
    rw [show ((fun p : Row × Cell => p.1) ∘
        fun p : Nat × Row => (p.2, some ("m" ++ pad6 (p.1 + 1)))) =
        (Prod.snd : Nat × Row → Row) from rfl]
    exact List.enum_map_snd sorted
  refine ⟨h1, h2, ?_⟩
  rw [h1]
  refine List.Nodup.map ?_ (List.nodup_range _)
  intro a b hab
  have hs : "m" ++ pad6 (a + 1) = "m" ++ pad6 (b + 1) := Option.some.inj hab
  have hl := congrArg String.toList hs
  rw [toList_append, toList_append] at hl
  have hl2 : (pad6 (a + 1)).toList = (pad6 (b + 1)).toList :=
    List.append_cancel_left hl
  have hp : pad6 (a + 1) = pad6 (b + 1) := String.ext hl2
  have := padNat_inj hp
  omega

/-- Witness for C10: two rows and no `image_id` column give `m000001` and
`m000002`. -/
theorem C10_witness :
    (assignMediaIds ["filename"] [imageRowDupA, imageRowDupB]).map
        (fun p => p.2) =
      [some "m000001", some "m000002"] ∧
    ((assignMediaIds ["filename"] [imageRowDupA, imageRowDupB]).map
        (fun p => p.2)).Nodup := by
  obtain ⟨h1, h2, h3⟩ :=
    C10_synthesized_media_ids ["filename"] [imageRowDupA, imageRowDupB]
      (by decide)
  refine ⟨?_, h3⟩
  rw [h1]
  decide

/-! ## Missing zip members (claim C9) -/

/-- A zip with no member whose name contains `deploy` loads an empty
deployments frame and can still complete the whole run successfully — no
member-presence check exists. -/
theorem C9_counterexample :
    pipeOk (process_zip membersNoDeploy "America/Bogota") = true := by
  decide

/-- C9 (amended): a zip with no CSV member whose lowercased name contains
`images` always raises — the empty frame loaded in its place lacks the
genus and species columns, so the scientific-name normalization dies — but
the corresponding statement for the `deploy` member is false: an absent
deployments member only yields an empty deployments frame. -/
theorem C9_missing_images :
    ∀ (members : List (String × Table)) (hint : String),
      (∀ m ∈ members,
        (endsWithStr (pyLower m.1) ".csv" &&
          containsSub (pyLower m.1) "images") = false) →
      ∃ e, process_zip members hint = Except.error e := by
  intro members hint h
  have hfind : members.find? (fun m =>
      endsWithStr (pyLower m.1) ".csv" &&
        containsSub (pyLower m.1) "images") = none := by
    rw [List.find?_eq_none]
    intro m hm
    rw [h m hm]
    simp
  have himg : loadCsvFromZip members "images" = emptyTable := by
    unfold loadCsvFromZip
    rw [hfind]
  unfold process_zip
  simp only [himg]
  simp only [show gateCheck emptyTable = none from rfl]
  cases hd : depDatesStep (loadCsvFromZip members "deploy") hint with
  | error e => exact ⟨e, rfl⟩
  | ok deploys => exact ⟨.attrError "scientific_name_norm", rfl⟩

/-- Witness for C9: the concrete zip without an images member fails. -/
theorem C9_witness :
    pipeOk (process_zip membersNoImages "America/Bogota") = false := by
  obtain ⟨e, he⟩ :=
    C9_missing_images membersNoImages "America/Bogota" (by decide)
  rw [he]
  rfl

end CamTrapFlow
